import Mathlib

/-!
# Naming convention validation: classification, validation and renaming of assets

A verification development for `UNamingConventionValidationManager`
(`NamingConventionValidationManager.cpp`) and `UNamingConventionValidationCommandlet`
(`NamingConventionValidationCommandlet.cpp`).  The manager classifies an asset as
`Valid`, `Invalid`, `Excluded` or `Unknown` from its package name, its asset name and
its class, against an ordered table of class descriptions that `Initialize` builds; it
validates and renames lists of assets, and the commandlet validates the assets of the
game content.

The functions of the manager are embedded as Lean functions over an explicit manager
state.  The engine types the manager relies on (`FString`, `FName`, `UClass`,
`FSoftClassPath`, `FAssetData`, `TArray`, `IAssetTools`) are modelled by the small amount
of behaviour the manager uses.
-/

namespace NamingConventionValidation

/-! ## Engine strings -/

/-- Lower-cased characters of a string: the engine compares `FString` and `FName` values
without regard to case (`ESearchCase::IgnoreCase` is the default of `StartsWith`,
`EndsWith` and `Contains`, and `operator==` uses `Stricmp`). -/
def FString.ToLower (s : String) : List Char :=
  s.data.map Char.toLower

/-- `FString::IsEmpty`. -/
def FString.IsEmpty (s : String) : Bool :=
  s.data.isEmpty

/-- `FString::StartsWith( InPrefix )` with the default `ESearchCase::IgnoreCase`:
`InPrefix.Len() > 0 && !Strnicmp( **this, *InPrefix, InPrefix.Len() )`. -/
def FString.StartsWith (s InPrefix : String) : Bool :=
  !FString.IsEmpty InPrefix && (FString.ToLower InPrefix).isPrefixOf (FString.ToLower s)

/-- `FString::EndsWith( InSuffix )` with the default `ESearchCase::IgnoreCase`:
`InSuffix.Len() > 0 && Len() >= InSuffix.Len() && !Stricmp( end of this, *InSuffix )`. -/
def FString.EndsWith (s InSuffix : String) : Bool :=
  !FString.IsEmpty InSuffix && (FString.ToLower InSuffix).isSuffixOf (FString.ToLower s)

/-- Search of a non-empty pattern at the head of each tail of the text, as `Stristr`
does: no position matches an empty pattern. -/
def FString.FindFrom (pat : List Char) : List Char → Bool
  | [] => false
  | c :: cs => (!pat.isEmpty && pat.isPrefixOf (c :: cs)) || FString.FindFrom pat cs

/-- `FString::Contains( SubStr )` with the default `ESearchCase::IgnoreCase` and
`ESearchDir::FromStart`: `Find( SubStr ) != INDEX_NONE`. -/
def FString.Contains (s SubStr : String) : Bool :=
  FString.FindFrom (FString.ToLower SubStr) (FString.ToLower s)

/-- `FString::operator==`, a case-insensitive comparison. -/
def FString.Equals (a b : String) : Bool :=
  FString.ToLower a == FString.ToLower b

/-- `FName::operator==`: names are compared by their case-insensitive index. -/
def FName.Equals (a b : String) : Bool :=
  FString.ToLower a == FString.ToLower b

/-- `FPaths::GetPath`: the part of the path left of its last slash or backslash, and the
empty string when the path has neither. -/
def FPaths.GetPath (InPath : String) : String :=
  String.mk (((InPath.data.reverse.dropWhile (fun c => !(c == '/' || c == '\\'))).drop 1).reverse)

/-! ## Engine classes -/

/-- A loaded class with its chain of super classes (single inheritance). -/
inductive UClass where
  | root (Name : String)
  | derived (Name : String) (SuperStruct : UClass)
  deriving DecidableEq, Repr

/-- The walk of `UStruct::IsChildOf` along `GetSuperStruct()`: true when the class or one
of its super classes is `SomeBase`. -/
def UClass.IsChildOfClass : UClass → UClass → Bool
  | .root n, SomeBase => decide (UClass.root n = SomeBase)
  | .derived n s, SomeBase => decide (UClass.derived n s = SomeBase) || s.IsChildOfClass SomeBase

/-- `UStruct::IsChildOf( SomeBase )`; a null `SomeBase` has no child. -/
def UClass.IsChildOf (c : UClass) : Option UClass → Bool
  | none => false
  | some SomeBase => c.IsChildOfClass SomeBase

/-- The part of the running editor the manager queries: the classes that
`FSoftClassPath::TryLoadClass` finds for a class path (`none` is the null class). -/
structure Engine where
  TryLoadClass : String → Option UClass

/-- The fields and tags of `FAssetData` the manager reads.  `NativeParentClass` and
`NativeClass` are the values of the tags of these names, when the asset has them;
`GetAsset` is the path of the class of the object `GetAsset()` loads, `none` when it
returns null. -/
structure FAssetData where
  PackageName : String
  AssetName : String
  AssetClass : String
  NativeParentClass : Option String
  NativeClass : Option String
  GetAsset : Option String
  deriving DecidableEq, Repr

/-! ## The manager -/

/-- `ENamingConventionValidationResult`. -/
inductive ENamingConventionValidationResult where
  | Invalid
  | Valid
  | Unknown
  | Excluded
  deriving DecidableEq, Repr

/-- `FNamingConventionValidationClassDescription`: a configured rule, with the class its
class path was loaded to (`none` when it did not load). -/
structure FNamingConventionValidationClassDescription where
  ClassPath : String
  Class : Option UClass
  Prefix : String
  Suffix : String
  deriving DecidableEq, Repr

/-- The configuration of `UNamingConventionValidationManager` that classification reads,
the configured `ExcludedClassPaths` that `Initialize` loads the excluded classes from,
the flag `bValidateOnSave`, which the constructor sets, and the names of the saved
packages that wait for their validation. -/
structure UNamingConventionValidationManager where
  ClassDescriptions : List FNamingConventionValidationClassDescription
  ExcludedClasses : List UClass
  ExcludedDirectories : List String
  BlueprintsPrefix : String
  ExcludedClassPaths : List String := []
  bValidateOnSave : Bool := true
  SavedPackagesToValidate : List String := []

/-- The message `WrongPrefix`, formatted with the class path and the required start. -/
def WrongPrefixText (ClassPath Required : String) : String :=
  "Assets of class \x27" ++ ClassPath ++ "\x27 must have a name which starts with " ++ Required

/-- The message `WrongSuffix`, formatted with the class path and the required end. -/
def WrongSuffixText (ClassPath Required : String) : String :=
  "Assets of class \x27" ++ ClassPath ++ "\x27 must have a name which ends with " ++ Required

/-- The message of the generic blueprint rule. -/
def GenericBlueprintText : String :=
  "Generic blueprint assets must start with BP_"

/-- The loop of `IsPathExcludedFromValidation` over the excluded directories. -/
def IsPathExcludedFromValidation.loop (path : String) : List String → Bool
  | [] => false
  | ExcludedPath :: rest =>
    if FString.Contains path ExcludedPath then true
    else IsPathExcludedFromValidation.loop path rest

/-- `UNamingConventionValidationManager::IsPathExcludedFromValidation`. -/
def UNamingConventionValidationManager.IsPathExcludedFromValidation
    (M : UNamingConventionValidationManager) (path : String) : Bool :=
  IsPathExcludedFromValidation.loop path M.ExcludedDirectories

/-- `UNamingConventionValidationManager::TryGetAssetDataRealClass`.  `asset_class` is the
value the out parameter holds on entry; the result is the returned flag and the value
the out parameter holds on exit. -/
def TryGetAssetDataRealClass (asset_class : String) (asset_data : FAssetData) : Bool × String :=
  match asset_data.NativeParentClass with
  | some v => (true, v)
  | none =>
    match asset_data.NativeClass with
    | some v => (true, v)
    | none =>
      match asset_data.GetAsset with
      | some class_path => (true, class_path)
      | none => (false, asset_class)

/-- The loop of `DoesAssetMatchNameConvention` over the excluded classes: true when it
returns `Excluded`. -/
def DoesAssetMatchNameConvention.excludedLoop (asset_real_class : UClass) : List UClass → Bool
  | [] => false
  | excluded_class :: rest =>
    if asset_real_class.IsChildOf (some excluded_class) then true
    else DoesAssetMatchNameConvention.excludedLoop asset_real_class rest

/-- The body of the loop of `DoesAssetMatchNameConvention` over the class descriptions,
for a description whose class the asset class is a child of: the verdict it returns and
the value of `error_message`. -/
def DoesAssetMatchNameConvention.descriptionBody
    (class_description : FNamingConventionValidationClassDescription)
    (asset_name error_message : String) : ENamingConventionValidationResult × String :=
  if !FString.IsEmpty class_description.Prefix
      && !FString.StartsWith asset_name class_description.Prefix then
    (.Invalid, WrongPrefixText class_description.ClassPath class_description.Prefix)
  else if !FString.IsEmpty class_description.Suffix
      && !FString.EndsWith asset_name class_description.Suffix then
    (.Invalid, WrongSuffixText class_description.ClassPath class_description.Prefix)
  else
    (.Valid, error_message)

/-- The loop of `DoesAssetMatchNameConvention` over the class descriptions: the verdict
and message it returns with, or `none` when it ends without returning. -/
def DoesAssetMatchNameConvention.descriptionsLoop (asset_real_class : UClass)
    (asset_name error_message : String) :
    List FNamingConventionValidationClassDescription →
      Option (ENamingConventionValidationResult × String)
  | [] => none
  | class_description :: rest =>
    if asset_real_class.IsChildOf class_description.Class then
      some (DoesAssetMatchNameConvention.descriptionBody class_description asset_name
        error_message)
    else
      DoesAssetMatchNameConvention.descriptionsLoop asset_real_class asset_name error_message rest

/-- The end of `DoesAssetMatchNameConvention`, reached when no class description
returned: the rule of generic blueprints. -/
def DoesAssetMatchNameConvention.blueprint (M : UNamingConventionValidationManager)
    (asset_data : FAssetData) (error_message : String) :
    ENamingConventionValidationResult × String :=
  if FName.Equals asset_data.AssetClass "Blueprint" then
    if !FString.StartsWith asset_data.AssetName M.BlueprintsPrefix then
      (.Invalid, GenericBlueprintText)
    else
      (.Valid, error_message)
  else
    (.Unknown, error_message)

/-- `UNamingConventionValidationManager::DoesAssetMatchNameConvention`: the verdict and
the value of `error_message` on exit. -/
def UNamingConventionValidationManager.DoesAssetMatchNameConvention
    (M : UNamingConventionValidationManager) (E : Engine) (asset_data : FAssetData)
    (asset_class error_message : String) : ENamingConventionValidationResult × String :=
  match E.TryLoadClass asset_class with
  | some asset_real_class =>
    if DoesAssetMatchNameConvention.excludedLoop asset_real_class M.ExcludedClasses then
      (.Excluded, error_message)
    else
      match DoesAssetMatchNameConvention.descriptionsLoop asset_real_class asset_data.AssetName
          error_message M.ClassDescriptions with
      | some r => r
      | none => DoesAssetMatchNameConvention.blueprint M asset_data error_message
  | none => DoesAssetMatchNameConvention.blueprint M asset_data error_message

/-- `UNamingConventionValidationManager::IsAssetNamedCorrectly`: the verdict and the value
of `error_message` on exit. -/
def UNamingConventionValidationManager.IsAssetNamedCorrectly
    (M : UNamingConventionValidationManager) (E : Engine) (asset_data : FAssetData)
    (error_message : String) : ENamingConventionValidationResult × String :=
  if M.IsPathExcludedFromValidation asset_data.PackageName then
    (.Excluded, error_message)
  else
    match TryGetAssetDataRealClass "None" asset_data with
    | (false, _) => (.Unknown, error_message)
    | (true, asset_class) => M.DoesAssetMatchNameConvention E asset_data asset_class error_message

/-- The body of the loop of `GetRenamedAssetSoftObjectPath` over the class descriptions,
for a description whose class the asset class is a child of: the value of `renamed_name`
at the `break`. -/
def GetRenamedAssetSoftObjectPath.descriptionBody
    (class_description : FNamingConventionValidationClassDescription)
    (renamed_name : String) : String :=
  let renamed_name1 :=
    if !FString.IsEmpty class_description.Prefix then class_description.Prefix ++ renamed_name
    else renamed_name
  if !FString.IsEmpty class_description.Suffix then renamed_name1 ++ class_description.Suffix
  else renamed_name1

/-- The loop of `GetRenamedAssetSoftObjectPath` over the class descriptions, which stops
at the first description whose class the asset class is a child of. -/
def GetRenamedAssetSoftObjectPath.descriptionsLoop (asset_real_class : UClass)
    (renamed_name : String) : List FNamingConventionValidationClassDescription → String
  | [] => renamed_name
  | class_description :: rest =>
    if asset_real_class.IsChildOf class_description.Class then
      GetRenamedAssetSoftObjectPath.descriptionBody class_description renamed_name
    else
      GetRenamedAssetSoftObjectPath.descriptionsLoop asset_real_class renamed_name rest

/-- The value of `renamed_name` in `GetRenamedAssetSoftObjectPath` when the path is put
together.  The soft object path of an asset is `PackageName.AssetName`, so that
`path.GetAssetName()` is the asset name. -/
def UNamingConventionValidationManager.RenamedName
    (M : UNamingConventionValidationManager) (E : Engine) (asset_data : FAssetData) : String :=
  let asset_class := (TryGetAssetDataRealClass "None" asset_data).2
  let renamed_name :=
    match E.TryLoadClass asset_class with
    | some asset_real_class =>
      GetRenamedAssetSoftObjectPath.descriptionsLoop asset_real_class asset_data.AssetName
        M.ClassDescriptions
    | none => asset_data.AssetName
  if FString.Equals renamed_name asset_data.AssetName then
    if FName.Equals asset_data.AssetClass "Blueprint" then M.BlueprintsPrefix ++ renamed_name
    else renamed_name
  else
    renamed_name

/-- `UNamingConventionValidationManager::GetRenamedAssetSoftObjectPath`: the path set in
`renamed_soft_object_path`.  `path.GetLongPackageName()` is the package name of the
asset. -/
def UNamingConventionValidationManager.GetRenamedAssetSoftObjectPath
    (M : UNamingConventionValidationManager) (E : Engine) (asset_data : FAssetData) : String :=
  let renamed_name := M.RenamedName E asset_data
  FPaths.GetPath asset_data.PackageName ++ "/" ++ renamed_name ++ "." ++ renamed_name

/-- The asset data of an asset once it has been renamed to the path that
`GetRenamedAssetSoftObjectPath` proposes: its package is in the directory it was in, its
package and asset names are the renamed name, its class and its tags are unchanged. -/
def UNamingConventionValidationManager.RenamedAssetData
    (M : UNamingConventionValidationManager) (E : Engine) (asset_data : FAssetData) : FAssetData :=
  { asset_data with
    PackageName := FPaths.GetPath asset_data.PackageName ++ "/" ++ M.RenamedName E asset_data
    AssetName := M.RenamedName E asset_data }

/-! ## Validation of a list of assets -/

/-- `EMessageSeverity`, as far as the manager logs with it. -/
inductive EMessageSeverity where
  | Error
  | Warning
  | Info
  deriving DecidableEq, Repr

/-- A line of the message log: its severity and the text of its tokens. -/
structure FTokenizedMessage where
  Severity : EMessageSeverity
  Tokens : List String
  deriving DecidableEq, Repr

/-- The local variables of `ValidateAssets` that its loop updates.  The counters are
`int32` in the source; each is at most the number of assets of the list, which `TArray`
bounds by the largest `int32`, so they are natural numbers here. -/
structure ValidateAssets.Locals where
  num_files_checked : Nat
  num_valid_files : Nat
  num_invalid_files : Nat
  num_files_skipped : Nat
  num_files_unable_to_validate : Nat
  data_validation_log : List FTokenizedMessage
  deriving DecidableEq, Repr

/-- The values of the locals of `ValidateAssets` before its loop. -/
def ValidateAssets.init : ValidateAssets.Locals :=
  { num_files_checked := 0
    num_valid_files := 0
    num_invalid_files := 0
    num_files_skipped := 0
    num_files_unable_to_validate := 0
    data_validation_log := [] }

/-- The body of the loop of `ValidateAssets` for one asset. -/
def ValidateAssets.body (M : UNamingConventionValidationManager) (E : Engine)
    (show_if_no_failures : Bool) (st : ValidateAssets.Locals) (asset_data : FAssetData) :
    ValidateAssets.Locals :=
  match M.IsAssetNamedCorrectly E asset_data "" with
  | (.Excluded, _) =>
    { st with
      data_validation_log := st.data_validation_log ++
        [⟨.Info, [asset_data.PackageName, "has not been tested based on the configuration."]⟩]
      num_files_skipped := st.num_files_skipped + 1 }
  | (.Valid, _) =>
    { st with
      num_valid_files := st.num_valid_files + 1
      num_files_checked := st.num_files_checked + 1 }
  | (.Invalid, error_message) =>
    { st with
      data_validation_log := st.data_validation_log ++
        [⟨.Error, [asset_data.PackageName, "does not match naming convention.", error_message]⟩]
      num_invalid_files := st.num_invalid_files + 1
      num_files_checked := st.num_files_checked + 1 }
  | (.Unknown, _) =>
    { st with
      data_validation_log :=
        if show_if_no_failures then
          st.data_validation_log ++
            [⟨.Warning, [asset_data.PackageName, "has no known naming convention.",
              " Class = " ++ asset_data.AssetClass]⟩]
        else st.data_validation_log
      num_files_checked := st.num_files_checked + 1
      num_files_unable_to_validate := st.num_files_unable_to_validate + 1 }

/-- The loop of `ValidateAssets` over the list of assets, from given values of the
locals. -/
def ValidateAssets.loop (M : UNamingConventionValidationManager) (E : Engine)
    (show_if_no_failures : Bool) (st : ValidateAssets.Locals) :
    List FAssetData → ValidateAssets.Locals
  | [] => st
  | asset_data :: rest =>
    ValidateAssets.loop M E show_if_no_failures
      (ValidateAssets.body M E show_if_no_failures st asset_data) rest

/-- The locals of `ValidateAssets` when it returns: the loop, then the two lines of the
summary when the run failed or `show_if_no_failures` is set, their numbers written in
digits. -/
def UNamingConventionValidationManager.ValidateAssetsLocals
    (M : UNamingConventionValidationManager) (E : Engine) (asset_data_list : List FAssetData)
    (skip_excluded_directories show_if_no_failures : Bool) : ValidateAssets.Locals :=
  let st := ValidateAssets.loop M E show_if_no_failures ValidateAssets.init asset_data_list
  let has_failed := decide (st.num_invalid_files > 0)
  if has_failed || show_if_no_failures then
    { st with
      data_validation_log := st.data_validation_log ++
        [⟨if has_failed then .Error else .Info,
          ["NamingConvention Validation " ++ (if has_failed then "FAILED" else "SUCCEEDED") ++ ".",
           "Files Checked: " ++ toString st.num_files_checked
             ++ ", Passed: " ++ toString st.num_valid_files
             ++ ", Failed: " ++ toString st.num_invalid_files
             ++ ", Skipped: " ++ toString st.num_files_skipped
             ++ ", Unable to validate: " ++ toString st.num_files_unable_to_validate]⟩] }
  else st

/-- `UNamingConventionValidationManager::ValidateAssets`: the number of invalid files it
returns. -/
def UNamingConventionValidationManager.ValidateAssets
    (M : UNamingConventionValidationManager) (E : Engine) (asset_data_list : List FAssetData)
    (skip_excluded_directories show_if_no_failures : Bool) : Nat :=
  (M.ValidateAssetsLocals E asset_data_list skip_excluded_directories
    show_if_no_failures).num_invalid_files

/-! ## Initialization of the manager -/

/-- The first loop of `Initialize`: every class description gets the class that its class
path loads to, null when it does not load; `ensureAlwaysMsgf` reports a null class and
goes on. -/
def Initialize.descriptionsLoop (E : Engine) :
    List FNamingConventionValidationClassDescription →
      List FNamingConventionValidationClassDescription
  | [] => []
  | class_description :: rest =>
    { class_description with Class := E.TryLoadClass class_description.ClassPath }
      :: Initialize.descriptionsLoop E rest

/-- `TArray::Sort()`, which orders the elements by their `operator<`, here `Less`.  The
sort of the engine is not stable; this one is the insertion sort, and the statements
about it hold of every sort: the result is a rearrangement, in which no element is
`Less` than an element before it. -/
def TArray.Sort {α : Type} (Less : α → α → Bool) (l : List α) : List α :=
  l.insertionSort (fun a b => Less b a = false)

/-- The second loop of `Initialize`: the classes that the excluded class paths load to are
added to `ExcludedClasses`, the paths that do not load adding nothing. -/
def Initialize.excludedLoop (E : Engine) (ExcludedClasses : List UClass) :
    List String → List UClass
  | [] => ExcludedClasses
  | class_path :: rest =>
    match E.TryLoadClass class_path with
    | some excluded_class =>
      Initialize.excludedLoop E (ExcludedClasses ++ [excluded_class]) rest
    | none => Initialize.excludedLoop E ExcludedClasses rest

/-- `UNamingConventionValidationManager::Initialize`.  `Less` is the `operator<` of
`FNamingConventionValidationClassDescription`, which the header of the manager declares
and `ClassDescriptions.Sort()` sorts by. -/
def UNamingConventionValidationManager.Initialize
    (M : UNamingConventionValidationManager) (E : Engine)
    (Less : FNamingConventionValidationClassDescription →
      FNamingConventionValidationClassDescription → Bool) :
    UNamingConventionValidationManager :=
  { M with
    ClassDescriptions := TArray.Sort Less (Initialize.descriptionsLoop E M.ClassDescriptions)
    ExcludedClasses := Initialize.excludedLoop E M.ExcludedClasses M.ExcludedClassPaths
    ExcludedDirectories := M.ExcludedDirectories ++ ["/Engine/"] }

/-! ## Renaming of a list of assets -/

/-- `FAssetData::ToSoftObjectPath`: the package name, a dot and the asset name. -/
def FAssetData.ToSoftObjectPath (asset_data : FAssetData) : String :=
  asset_data.PackageName ++ "." ++ asset_data.AssetName

/-- `FAssetRenameData`: the path of an asset and the path to rename it to. -/
structure FAssetRenameData where
  OldObjectPath : String
  NewObjectPath : String
  deriving DecidableEq, Repr

/-- `IAssetTools::RenameAssets`, the executor of the renames: from its state and the
renames asked for, whether it succeeded, and its state afterwards. -/
structure IAssetTools (σ : Type) where
  RenameAssets : σ → List FAssetRenameData → Bool × σ

/-- The local variables of `RenameAssets` that its loop updates, with the state of the
asset tools and, in `rename_calls`, the arguments of the calls made to
`IAssetTools::RenameAssets`, in the order of the calls. -/
structure RenameAssets.Locals (σ : Type) where
  num_files_checked : Nat
  num_files_renamed : Nat
  num_files_skipped : Nat
  num_files_failed : Nat
  data_validation_log : List FTokenizedMessage
  asset_tools : σ
  rename_calls : List (List FAssetRenameData)

/-- The values of the locals of `RenameAssets` before its loop. -/
def RenameAssets.init {σ : Type} (asset_tools : σ) : RenameAssets.Locals σ :=
  { num_files_checked := 0
    num_files_renamed := 0
    num_files_skipped := 0
    num_files_failed := 0
    data_validation_log := []
    asset_tools := asset_tools
    rename_calls := [] }

/-- The body of the loop of `RenameAssets` for one asset. -/
def RenameAssets.body {σ : Type} (M : UNamingConventionValidationManager) (E : Engine)
    (module : IAssetTools σ) (show_if_no_failures : Bool) (st : RenameAssets.Locals σ)
    (asset_data : FAssetData) : RenameAssets.Locals σ :=
  match M.IsAssetNamedCorrectly E asset_data "" with
  | (.Excluded, _) =>
    { st with
      data_validation_log := st.data_validation_log ++
        [⟨.Info, [asset_data.PackageName, "has not been excluded based on the configuration."]⟩]
      num_files_skipped := st.num_files_skipped + 1 }
  | (.Valid, _) =>
    { st with num_files_checked := st.num_files_checked + 1 }
  | (.Invalid, _) =>
    let old_object_path := asset_data.ToSoftObjectPath
    let new_object_path := M.GetRenamedAssetSoftObjectPath E asset_data
    let assets_to_rename : List FAssetRenameData := [⟨old_object_path, new_object_path⟩]
    match module.RenameAssets st.asset_tools assets_to_rename with
    | (false, asset_tools) =>
      { st with
        asset_tools := asset_tools
        rename_calls := st.rename_calls ++ [assets_to_rename]
        num_files_failed := st.num_files_failed + 1
        data_validation_log := st.data_validation_log ++
          [⟨.Error, [asset_data.PackageName, "could not be renamed."]⟩]
        num_files_checked := st.num_files_checked + 1 }
    | (true, asset_tools) =>
      { st with
        asset_tools := asset_tools
        rename_calls := st.rename_calls ++ [assets_to_rename]
        num_files_renamed := st.num_files_renamed + 1
        data_validation_log := st.data_validation_log ++
          [⟨.Info, [asset_data.PackageName, "has been renamed to",
            (M.RenamedAssetData E asset_data).PackageName]⟩]
        num_files_checked := st.num_files_checked + 1 }
  | (.Unknown, _) =>
    { st with
      data_validation_log :=
        if show_if_no_failures then
          st.data_validation_log ++
            [⟨.Warning, [asset_data.PackageName, "has no known naming convention.",
              " Class = " ++ asset_data.AssetClass]⟩]
        else st.data_validation_log
      num_files_checked := st.num_files_checked + 1 }

/-- The loop of `RenameAssets` over the list of assets, from given values of the
locals. -/
def RenameAssets.loop {σ : Type} (M : UNamingConventionValidationManager) (E : Engine)
    (module : IAssetTools σ) (show_if_no_failures : Bool) (st : RenameAssets.Locals σ) :
    List FAssetData → RenameAssets.Locals σ
  | [] => st
  | asset_data :: rest =>
    RenameAssets.loop M E module show_if_no_failures
      (RenameAssets.body M E module show_if_no_failures st asset_data) rest

/-- The locals of `RenameAssets` when it returns: the loop, then the two lines of the
summary when a rename failed or `show_if_no_failures` is set, their numbers written in
digits. -/
def UNamingConventionValidationManager.RenameAssetsLocals {σ : Type}
    (M : UNamingConventionValidationManager) (E : Engine) (module : IAssetTools σ)
    (asset_tools : σ) (asset_data_list : List FAssetData)
    (skip_excluded_directories show_if_no_failures : Bool) : RenameAssets.Locals σ :=
  let st := RenameAssets.loop M E module show_if_no_failures (RenameAssets.init asset_tools)
    asset_data_list
  let has_failed := decide (st.num_files_failed > 0)
  if has_failed || show_if_no_failures then
    { st with
      data_validation_log := st.data_validation_log ++
        [⟨if has_failed then .Error else .Info,
          ["Renaming following NamingConvention "
              ++ (if has_failed then "FAILED" else "SUCCEEDED") ++ ".",
           "Files Checked: " ++ toString st.num_files_checked
             ++ ", Renamed: " ++ toString st.num_files_renamed
             ++ ", Failed: " ++ toString st.num_files_failed
             ++ ", Skipped: " ++ toString st.num_files_skipped]⟩] }
  else st

/-- `UNamingConventionValidationManager::RenameAssets`: the number of failed renames it
returns. -/
def UNamingConventionValidationManager.RenameAssets {σ : Type}
    (M : UNamingConventionValidationManager) (E : Engine) (module : IAssetTools σ)
    (asset_tools : σ) (asset_data_list : List FAssetData)
    (skip_excluded_directories show_if_no_failures : Bool) : Nat :=
  (M.RenameAssetsLocals E module asset_tools asset_data_list skip_excluded_directories
    show_if_no_failures).num_files_failed

/-- The rename that `RenameAssets` asks for an asset: from the path of the asset to the
path that `GetRenamedAssetSoftObjectPath` gives. -/
def UNamingConventionValidationManager.AssetsToRename
    (M : UNamingConventionValidationManager) (E : Engine) (asset_data : FAssetData) :
    List FAssetRenameData :=
  [⟨asset_data.ToSoftObjectPath, M.GetRenamedAssetSoftObjectPath E asset_data⟩]

/-- The outcomes of successive calls of the rename executor, from a state of the asset
tools, and the state after the last call. -/
def IAssetTools.outcomes {σ : Type} (module : IAssetTools σ) :
    σ → List (List FAssetRenameData) → List Bool × σ
  | asset_tools, [] => ([], asset_tools)
  | asset_tools, call :: calls =>
    ((module.RenameAssets asset_tools call).1
        :: (IAssetTools.outcomes module (module.RenameAssets asset_tools call).2 calls).1,
      (IAssetTools.outcomes module (module.RenameAssets asset_tools call).2 calls).2)


/-! ## Validation of the saved packages -/

/-- `TArray::AddUnique`: the item is added at the end of the array unless an element of
the array is equal to it, by the `operator==` of the elements, here `Equals`. -/
def TArray.AddUnique {α : Type} (Equals : α → α → Bool) (l : List α) (Item : α) : List α :=
  if l.any (fun Element => Equals Element Item) then l else l ++ [Item]

/-- What the manager asks of the asset registry for the saved packages: the assets of a
package, by its name. -/
structure IAssetRegistry where
  GetAssetsByPackageName : String → List FAssetData

/-- `UNamingConventionValidationManager::ValidateOnSave`, with the value of
`GEditor->IsAutosaving()`: `none` when it returns at once, and otherwise the locals of
`ValidateAssets` with the notification it makes when an asset is invalid. -/
def UNamingConventionValidationManager.ValidateOnSave
    (M : UNamingConventionValidationManager) (E : Engine) (IsAutosaving : Bool)
    (asset_data_list : List FAssetData) : Option (ValidateAssets.Locals × Option String) :=
  if !M.bValidateOnSave || IsAutosaving then none
  else
    let notification :=
      if M.ValidateAssets E asset_data_list true false > 0 then
        some ("Naming Convention Validation failed when saving "
          ++ (match asset_data_list with
              | [asset_data] => asset_data.AssetName
              | _ => "multiple assets")
          ++ ", check Naming Convention Validation log")
      else none
    some (M.ValidateAssetsLocals E asset_data_list true false, notification)

/-- `UNamingConventionValidationManager::ValidateSavedPackage`, with the value of
`GEditor->IsAutosaving()`: the manager after the call, and whether the call set the timer
that calls `ValidateAllSavedPackages` at the next tick. -/
def UNamingConventionValidationManager.ValidateSavedPackage
    (M : UNamingConventionValidationManager) (IsAutosaving : Bool) (package_name : String) :
    UNamingConventionValidationManager × Bool :=
  if !M.bValidateOnSave || IsAutosaving then (M, false)
  else
    ({ M with
        SavedPackagesToValidate :=
          TArray.AddUnique FName.Equals M.SavedPackagesToValidate package_name },
      true)

/-- The loop of `ValidateAllSavedPackages` over the saved packages, which adds the assets
of each package to `assets`. -/
def ValidateAllSavedPackages.loop (asset_registry : IAssetRegistry) (assets : List FAssetData) :
    List String → List FAssetData
  | [] => assets
  | package_name :: rest =>
    ValidateAllSavedPackages.loop asset_registry
      (assets ++ asset_registry.GetAssetsByPackageName package_name) rest

/-- `UNamingConventionValidationManager::ValidateAllSavedPackages`, with the value of
`GEditor->IsAutosaving()`: the manager after the call and what `ValidateOnSave` did with
the assets of the saved packages. -/
def UNamingConventionValidationManager.ValidateAllSavedPackages
    (M : UNamingConventionValidationManager) (E : Engine) (asset_registry : IAssetRegistry)
    (IsAutosaving : Bool) :
    UNamingConventionValidationManager × Option (ValidateAssets.Locals × Option String) :=
  let assets := ValidateAllSavedPackages.loop asset_registry [] M.SavedPackagesToValidate
  let validated := M.ValidateOnSave E IsAutosaving assets
  ({ M with SavedPackagesToValidate := [] }, validated)

/-- A call of one of the two functions that change `SavedPackagesToValidate`, with the
value `GEditor->IsAutosaving()` has during the call. -/
inductive SavedPackagesCall where
  | ValidateSavedPackage (package_name : String) (IsAutosaving : Bool)
  | ValidateAllSavedPackages (IsAutosaving : Bool)
  deriving DecidableEq, Repr

/-- The manager after a sequence of calls of `ValidateSavedPackage` and
`ValidateAllSavedPackages`, in the order of the list. -/
def UNamingConventionValidationManager.AfterSavedPackagesCalls
    (M : UNamingConventionValidationManager) (E : Engine) (asset_registry : IAssetRegistry) :
    List SavedPackagesCall → UNamingConventionValidationManager
  | [] => M
  | .ValidateSavedPackage package_name IsAutosaving :: calls =>
    UNamingConventionValidationManager.AfterSavedPackagesCalls
      (M.ValidateSavedPackage IsAutosaving package_name).1 E asset_registry calls
  | .ValidateAllSavedPackages IsAutosaving :: calls =>
    UNamingConventionValidationManager.AfterSavedPackagesCalls
      (M.ValidateAllSavedPackages E asset_registry IsAutosaving).1 E asset_registry calls


/-! ## The commandlet -/

/-- `UEditorNamingValidatorSubsystem`, of which the commandlet calls `ValidateAssets`: the
value that call returns for a list of assets. -/
structure UEditorNamingValidatorSubsystem where
  ValidateAssets : List FAssetData → Nat

/-- What the commandlet asks of the editor: the assets that the asset registry gives for
the package paths of a recursive filter, and the naming validator subsystem that
`GEditor->GetEditorSubsystem` gives, `none` when it is null. -/
structure UEditorEngine where
  GetAssets : List String → List FAssetData
  GetEditorSubsystem : Option UEditorNamingValidatorSubsystem

/-- `UNamingConventionValidationCommandlet::ValidateData`: the value it returns, and
`none` when `check( editor_validator_subsystem )` stops the program. -/
def UNamingConventionValidationCommandlet.ValidateData (GEditor : UEditorEngine) : Option Bool :=
  let asset_data_list := GEditor.GetAssets ["/Game"]
  match GEditor.GetEditorSubsystem with
  | none => none
  | some editor_validator_subsystem =>
    let _ := editor_validator_subsystem.ValidateAssets asset_data_list
    some true

/-- `UNamingConventionValidationCommandlet::Main`: the value it returns, and `none` when
`ValidateData` does not return.  The lines it writes to the log are left out. -/
def UNamingConventionValidationCommandlet.Main (GEditor : UEditorEngine) (params : String) :
    Option Int :=
  match UNamingConventionValidationCommandlet.ValidateData GEditor with
  | none => none
  | some validated => if !validated then some 2 else some 0


/-! ## A small project

Classes, an engine and assets on which the statements below are evaluated. -/

/-- The class `UObject`. -/
def ObjectClass : UClass := .root "/Script/CoreUObject.Object"

/-- The class `UStaticMesh`, a child of `UObject`. -/
def StaticMeshClass : UClass := .derived "/Script/Engine.StaticMesh" ObjectClass

/-- The class `UTexture`, a child of `UObject`. -/
def TextureClass : UClass := .derived "/Script/Engine.Texture" ObjectClass

/-- The class `UTexture2D`, a child of `UTexture`. -/
def Texture2DClass : UClass := .derived "/Script/Engine.Texture2D" TextureClass

/-- The class `AActor`, a child of `UObject`. -/
def ActorClass : UClass := .derived "/Script/Engine.Actor" ObjectClass

/-- An engine in which the five classes above load and no other class does. -/
def ProjectEngine : Engine where
  TryLoadClass := fun class_path =>
    if class_path = "/Script/CoreUObject.Object" then some ObjectClass
    else if class_path = "/Script/Engine.StaticMesh" then some StaticMeshClass
    else if class_path = "/Script/Engine.Texture" then some TextureClass
    else if class_path = "/Script/Engine.Texture2D" then some Texture2DClass
    else if class_path = "/Script/Engine.Actor" then some ActorClass
    else none

/-- The rule of static meshes: the name starts with `SM_`. -/
def StaticMeshDescription : FNamingConventionValidationClassDescription :=
  { ClassPath := "/Script/Engine.StaticMesh", Class := some StaticMeshClass,
    Prefix := "SM_", Suffix := "" }

/-- A rule of static meshes with a start and an end: `SM_` and `_LOD`. -/
def StaticMeshLodDescription : FNamingConventionValidationClassDescription :=
  { ClassPath := "/Script/Engine.StaticMesh", Class := some StaticMeshClass,
    Prefix := "SM_", Suffix := "_LOD" }

/-- The rule of textures: the name starts with `T_`. -/
def TextureDescription : FNamingConventionValidationClassDescription :=
  { ClassPath := "/Script/Engine.Texture", Class := some TextureClass,
    Prefix := "T_", Suffix := "" }

/-- The rule of two-dimensional textures: the name starts with `T2D_`. -/
def Texture2DDescription : FNamingConventionValidationClassDescription :=
  { ClassPath := "/Script/Engine.Texture2D", Class := some Texture2DClass,
    Prefix := "T2D_", Suffix := "" }

/-- A manager with the rule of static meshes, the rule of textures listed before the rule
of two-dimensional textures, no excluded class, and the directory `/Engine/` that
`Initialize` excludes. -/
def ProjectManager : UNamingConventionValidationManager :=
  { ClassDescriptions := [StaticMeshDescription, TextureDescription, Texture2DDescription]
    ExcludedClasses := []
    ExcludedDirectories := ["/Engine/"]
    BlueprintsPrefix := "BP_" }

/-- The manager `ProjectManager` with the textures excluded. -/
def TextureExcludingManager : UNamingConventionValidationManager :=
  { ProjectManager with ExcludedClasses := [TextureClass] }

/-- The manager `ProjectManager` with the rule of static meshes asking for `_LOD` too. -/
def LodManager : UNamingConventionValidationManager :=
  { ProjectManager with ClassDescriptions := [StaticMeshLodDescription] }

/-- The manager `ProjectManager` configured with an empty prefix of generic blueprints. -/
def EmptyBlueprintsPrefixManager : UNamingConventionValidationManager :=
  { ProjectManager with BlueprintsPrefix := "" }

/-- A static mesh of the project, named `Cube`. -/
def CubeAsset : FAssetData :=
  { PackageName := "/Game/Meshes/Cube", AssetName := "Cube", AssetClass := "StaticMesh",
    NativeParentClass := none, NativeClass := none,
    GetAsset := some "/Script/Engine.StaticMesh" }

/-- A static mesh of the project, named `SM_Cube`. -/
def SmCubeAsset : FAssetData :=
  { CubeAsset with PackageName := "/Game/Meshes/SM_Cube", AssetName := "SM_Cube" }

/-- An asset of the engine content, whose class cannot be found. -/
def EngineShapeAsset : FAssetData :=
  { PackageName := "/Engine/Basic/Shapes", AssetName := "anything", AssetClass := "Anything",
    NativeParentClass := none, NativeClass := none, GetAsset := none }

/-- A two-dimensional texture of the project, named `T_Wood`. -/
def WoodAsset : FAssetData :=
  { PackageName := "/Game/Textures/T_Wood", AssetName := "T_Wood", AssetClass := "Texture2D",
    NativeParentClass := none, NativeClass := none,
    GetAsset := some "/Script/Engine.Texture2D" }

/-- A blueprint whose native parent class is an actor, named `Door`. -/
def DoorAsset : FAssetData :=
  { PackageName := "/Game/Blueprints/Door", AssetName := "Door", AssetClass := "Blueprint",
    NativeParentClass := some "/Script/Engine.Actor", NativeClass := none, GetAsset := none }

/-- An asset whose native class is the actor class, which no rule of `ProjectManager`
covers, and which is not a blueprint. -/
def ActorAsset : FAssetData :=
  { PackageName := "/Game/Misc/Thing", AssetName := "Thing", AssetClass := "Thing",
    NativeParentClass := none, NativeClass := some "/Script/Engine.Actor", GetAsset := none }

/-- A two-dimensional texture of the project, named `Plank`. -/
def PlankAsset : FAssetData :=
  { WoodAsset with PackageName := "/Game/Textures/Plank", AssetName := "Plank" }

/-- An `operator<` of class descriptions, for the evaluation of `Initialize`: the
description with the longer class path is the lesser one, and is sorted first. -/
def LongerClassPathFirst (a b : FNamingConventionValidationClassDescription) : Bool :=
  decide (b.ClassPath.length < a.ClassPath.length)

/-- A class description whose class path loads to no class. -/
def RemovedActorDescription : FNamingConventionValidationClassDescription :=
  { ClassPath := "/Script/Game.RemovedActor", Class := none, Prefix := "RA_", Suffix := "" }

/-- A manager before `Initialize`: the configured class descriptions, with the rule of
textures listed before the rule of two-dimensional textures and a rule whose class path
does not load, no class loaded yet, and two excluded class paths, of which the first
loads. -/
def ConfiguredManager : UNamingConventionValidationManager :=
  { ClassDescriptions :=
      [{ TextureDescription with Class := none }, { Texture2DDescription with Class := none },
        RemovedActorDescription]
    ExcludedClasses := []
    ExcludedDirectories := []
    BlueprintsPrefix := "BP_"
    ExcludedClassPaths := ["/Script/Engine.Actor", "/Script/Game.RemovedActor"] }


/-- An asset of the project in a directory named `Engine` of the game content. -/
def GameEngineRockAsset : FAssetData :=
  { CubeAsset with PackageName := "/Game/Engine/Rock", AssetName := "Rock" }


/-- A naming validator subsystem that validates with `ProjectManager` and returns the
number of invalid assets. -/
def ProjectSubsystem : UEditorNamingValidatorSubsystem where
  ValidateAssets := fun asset_data_list =>
    ProjectManager.ValidateAssets ProjectEngine asset_data_list true true

/-- An editor whose asset registry holds an invalid static mesh and a valid texture, with
the naming validator subsystem of the project. -/
def ProjectEditor : UEditorEngine where
  GetAssets := fun _ => [CubeAsset, WoodAsset]
  GetEditorSubsystem := some ProjectSubsystem

/-- A rename executor that fails for the asset `/Game/Meshes/Cube.Cube` and renames every
other asset; its state is the number of calls made. -/
def ProjectAssetTools : IAssetTools Nat where
  RenameAssets := fun calls assets_to_rename =>
    (assets_to_rename.all (fun r => r.OldObjectPath != "/Game/Meshes/Cube.Cube"), calls + 1)


/-- An asset registry that holds the static mesh named `Cube` and the texture named
`T_Wood`, each in its package. -/
def ProjectAssetRegistry : IAssetRegistry where
  GetAssetsByPackageName := fun package_name =>
    if package_name = "/Game/Meshes/Cube" then [CubeAsset]
    else if package_name = "/Game/Textures/T_Wood" then [WoodAsset]
    else []

/-- Saves of the project: the package of `Cube` saved twice, the second time under a name
written in other letter case, the package of `T_Wood` saved during an autosave and then
saved again. -/
def ProjectSaves : List SavedPackagesCall :=
  [.ValidateSavedPackage "/Game/Meshes/Cube" false,
   .ValidateSavedPackage "/Game/Meshes/cube" false,
   .ValidateSavedPackage "/Game/Textures/T_Wood" true,
   .ValidateSavedPackage "/Game/Textures/T_Wood" false]


/-- A static mesh of the project, named `sm_cube` in small letters. -/
def SmallLettersCubeAsset : FAssetData :=
  { CubeAsset with PackageName := "/Game/Meshes/sm_cube", AssetName := "sm_cube" }

/-- A static mesh of the project, named `SM_Cube_LOD`. -/
def SmCubeLodAsset : FAssetData :=
  { CubeAsset with PackageName := "/Game/Meshes/SM_Cube_LOD", AssetName := "SM_Cube_LOD" }

/-- A static mesh of the project, named `SM_Cube_lod`, its end in small letters. -/
def SmallLettersLodAsset : FAssetData :=
  { CubeAsset with PackageName := "/Game/Meshes/SM_Cube_lod", AssetName := "SM_Cube_lod" }

/-- A blueprint whose native parent class is an actor, named `BP_Door`. -/
def BpDoorAsset : FAssetData :=
  { DoorAsset with PackageName := "/Game/Blueprints/BP_Door", AssetName := "BP_Door" }

/-- A blueprint whose native parent class is an actor, named `bp_door` in small
letters. -/
def SmallLettersDoorAsset : FAssetData :=
  { DoorAsset with PackageName := "/Game/Blueprints/bp_door", AssetName := "bp_door" }

/-- An asset of the project in a directory named `ENGINE`, in capital letters, of the game
content. -/
def CapitalLettersEngineRockAsset : FAssetData :=
  { CubeAsset with PackageName := "/Game/ENGINE/Rock", AssetName := "Rock" }

/-- The manager `ProjectManager` with one excluded directory, of empty path. -/
def BlankDirectoryManager : UNamingConventionValidationManager :=
  { ProjectManager with ExcludedDirectories := [""] }


/-! ## Lemmas on the engine model -/

theorem FString.ToLower_append (a b : String) :
    FString.ToLower (a ++ b) = FString.ToLower a ++ FString.ToLower b := by
  simp [FString.ToLower, String.data_append]

/-- A string starts with the non-empty string inserted at its start. -/
theorem FString.StartsWith_InsertAt (p s : String) (hp : FString.IsEmpty p = false) :
    FString.StartsWith (p ++ s) p = true := by
  simp [FString.StartsWith, hp, FString.ToLower_append]

/-- A string still starts with what it started with after an `Append`. -/
theorem FString.StartsWith_Append (s p x : String) (h : FString.StartsWith s p = true) :
    FString.StartsWith (s ++ x) p = true := by
  simp only [FString.StartsWith, Bool.and_eq_true, List.isPrefixOf_iff_prefix,
    FString.ToLower_append] at h ⊢
  exact ⟨h.1, h.2.trans (List.prefix_append _ _)⟩

/-- A string ends with the non-empty string appended to it. -/
theorem FString.EndsWith_Append (s x : String) (hx : FString.IsEmpty x = false) :
    FString.EndsWith (s ++ x) x = true := by
  simp [FString.EndsWith, hx, FString.ToLower_append]

/-- Equal strings have the same length. -/
theorem FString.Equals_length (a b : String) (h : FString.Equals a b = true) :
    a.length = b.length := by
  simp only [FString.Equals, beq_iff_eq, FString.ToLower] at h
  have hl := congrArg List.length h
  rw [List.length_map, List.length_map] at hl
  exact hl

/-- A class is a child of itself. -/
theorem UClass.IsChildOfClass_self (c : UClass) : c.IsChildOfClass c = true := by
  cases c <;> simp [UClass.IsChildOfClass]

/-- A string is empty, for `IsEmpty`, exactly when it is the empty string. -/
theorem FString.IsEmpty_iff (s : String) : FString.IsEmpty s = true ↔ s = "" := by
  constructor
  · intro h
    have hd : s.data = [] := by simpa [FString.IsEmpty] using h
    exact String.ext hd
  · intro h
    subst h
    rfl

/-- `StartsWith` is true exactly when the start looked for is not empty and its
characters, put in small letters, are the first characters of the string put in small
letters. -/
theorem FString.StartsWith_iff (s InPrefix : String) :
    FString.StartsWith s InPrefix = true ↔
      InPrefix ≠ "" ∧ InPrefix.data.map Char.toLower <+: s.data.map Char.toLower := by
  unfold FString.StartsWith
  rw [Bool.and_eq_true, List.isPrefixOf_iff_prefix, Bool.not_eq_true', ← Bool.not_eq_true,
    FString.IsEmpty_iff]
  rfl

/-- `EndsWith` is true exactly when the end looked for is not empty and its characters,
put in small letters, are the last characters of the string put in small letters. -/
theorem FString.EndsWith_iff (s InSuffix : String) :
    FString.EndsWith s InSuffix = true ↔
      InSuffix ≠ "" ∧ InSuffix.data.map Char.toLower <:+ s.data.map Char.toLower := by
  unfold FString.EndsWith
  rw [Bool.and_eq_true, List.isSuffixOf_iff_suffix, Bool.not_eq_true', ← Bool.not_eq_true,
    FString.IsEmpty_iff]
  rfl

/-! ## Lemmas on the loops -/

/-- The loop over the excluded classes returns true exactly when the asset class is a
child of one of them. -/
theorem DoesAssetMatchNameConvention.excludedLoop_eq_true_iff (c : UClass) (xs : List UClass) :
    DoesAssetMatchNameConvention.excludedLoop c xs = true ↔
      ∃ x ∈ xs, c.IsChildOf (some x) = true := by
  induction xs with
  | nil => simp [DoesAssetMatchNameConvention.excludedLoop]
  | cons x xs ih =>
    by_cases h : c.IsChildOf (some x) = true
    · simp [DoesAssetMatchNameConvention.excludedLoop, h]
    · simp [DoesAssetMatchNameConvention.excludedLoop, h, ih]

/-- The verdict of `IsAssetNamedCorrectly` for an asset whose path is not excluded and for
which `TryGetAssetDataRealClass` finds a class name. -/
theorem IsAssetNamedCorrectly_eq_DoesAssetMatchNameConvention
    (M : UNamingConventionValidationManager) (E : Engine) (asset_data : FAssetData)
    (error_message asset_class : String)
    (hpath : M.IsPathExcludedFromValidation asset_data.PackageName = false)
    (hclass : TryGetAssetDataRealClass "None" asset_data = (true, asset_class)) :
    M.IsAssetNamedCorrectly E asset_data error_message =
      M.DoesAssetMatchNameConvention E asset_data asset_class error_message := by
  simp [UNamingConventionValidationManager.IsAssetNamedCorrectly, hpath, hclass]

/-! ## Exclusions and unresolved classes -/

/-- C2: an asset whose class is one of the excluded classes, or a child of one, is
`Excluded`, whatever its name and whatever the class descriptions hold. -/
theorem IsAssetNamedCorrectly_excluded_class
    (M : UNamingConventionValidationManager) (E : Engine) (asset_data : FAssetData)
    (error_message asset_class : String) (asset_real_class : UClass)
    (hclass : TryGetAssetDataRealClass "None" asset_data = (true, asset_class))
    (hload : E.TryLoadClass asset_class = some asset_real_class)
    (hex : ∃ x ∈ M.ExcludedClasses,
      asset_real_class = x ∨ asset_real_class.IsChildOf (some x) = true) :
    (M.IsAssetNamedCorrectly E asset_data error_message).1 =
      ENamingConventionValidationResult.Excluded := by
  have hloop : DoesAssetMatchNameConvention.excludedLoop asset_real_class M.ExcludedClasses
      = true := by
    rw [DoesAssetMatchNameConvention.excludedLoop_eq_true_iff]
    obtain ⟨x, hx, hc⟩ := hex
    refine ⟨x, hx, ?_⟩
    rcases hc with hc | hc
    · subst hc
      exact UClass.IsChildOfClass_self _
    · exact hc
  cases hpath : M.IsPathExcludedFromValidation asset_data.PackageName
  · rw [IsAssetNamedCorrectly_eq_DoesAssetMatchNameConvention M E asset_data error_message
      asset_class hpath hclass]
    simp [UNamingConventionValidationManager.DoesAssetMatchNameConvention, hload, hloop]
  · simp [UNamingConventionValidationManager.IsAssetNamedCorrectly, hpath]

/-- The statement C2 on a two-dimensional texture named `Plank`: the rule of textures
makes it `Invalid`, and with the textures excluded it is `Excluded`. -/
theorem IsAssetNamedCorrectly_excluded_class_witness :
    (ProjectManager.IsAssetNamedCorrectly ProjectEngine PlankAsset "").1 =
        ENamingConventionValidationResult.Invalid ∧
      (TextureExcludingManager.IsAssetNamedCorrectly ProjectEngine PlankAsset "").1 =
        ENamingConventionValidationResult.Excluded :=
  ⟨by decide,
    IsAssetNamedCorrectly_excluded_class TextureExcludingManager ProjectEngine PlankAsset ""
      "/Script/Engine.Texture2D" Texture2DClass rfl rfl
      ⟨TextureClass, by decide, Or.inr (by decide)⟩⟩

/-- The loop over the class descriptions returns with the body of the first description
whose class the asset class is a child of, and ends without returning when there is
none. -/
theorem DoesAssetMatchNameConvention.descriptionsLoop_eq_find
    (c : UClass) (asset_name error_message : String)
    (ds : List FNamingConventionValidationClassDescription) :
    DoesAssetMatchNameConvention.descriptionsLoop c asset_name error_message ds =
      (ds.find? (fun d => c.IsChildOf d.Class)).map
        (fun d => DoesAssetMatchNameConvention.descriptionBody d asset_name error_message) := by
  induction ds with
  | nil => simp [DoesAssetMatchNameConvention.descriptionsLoop]
  | cons d ds ih =>
    by_cases h : c.IsChildOf d.Class = true
    · simp [DoesAssetMatchNameConvention.descriptionsLoop, h]
    · simp [DoesAssetMatchNameConvention.descriptionsLoop, h, ih]

/-- The first description that matches in a table `before ++ r :: after` none of whose
entries in `before` matches is `r`. -/
theorem find_first_matching (c : UClass)
    (before after : List FNamingConventionValidationClassDescription)
    (r : FNamingConventionValidationClassDescription)
    (hbefore : ∀ d ∈ before, c.IsChildOf d.Class = false)
    (hr : c.IsChildOf r.Class = true) :
    (before ++ r :: after).find? (fun d => c.IsChildOf d.Class) = some r := by
  induction before with
  | nil => simp [hr]
  | cons d ds ih =>
    have hd : c.IsChildOf d.Class = false := hbefore d (List.mem_cons_self _ _)
    have hds : ∀ x ∈ ds, c.IsChildOf x.Class = false :=
      fun x hx => hbefore x (List.mem_cons_of_mem _ hx)
    simp [hd, ih hds]

/-- The verdict and message of `IsAssetNamedCorrectly` for an asset that is not excluded
and whose class has `r` as first matching description: those of the body for `r`. -/
theorem IsAssetNamedCorrectly_eq_descriptionBody
    (M : UNamingConventionValidationManager) (E : Engine) (asset_data : FAssetData)
    (error_message asset_class : String) (asset_real_class : UClass)
    (r : FNamingConventionValidationClassDescription)
    (hpath : M.IsPathExcludedFromValidation asset_data.PackageName = false)
    (hclass : TryGetAssetDataRealClass "None" asset_data = (true, asset_class))
    (hload : E.TryLoadClass asset_class = some asset_real_class)
    (hnotex : DoesAssetMatchNameConvention.excludedLoop asset_real_class M.ExcludedClasses
      = false)
    (hrule : M.ClassDescriptions.find? (fun d => asset_real_class.IsChildOf d.Class) = some r) :
    M.IsAssetNamedCorrectly E asset_data error_message =
      DoesAssetMatchNameConvention.descriptionBody r asset_data.AssetName error_message := by
  rw [IsAssetNamedCorrectly_eq_DoesAssetMatchNameConvention M E asset_data error_message
    asset_class hpath hclass]
  simp [UNamingConventionValidationManager.DoesAssetMatchNameConvention, hload, hnotex,
    DoesAssetMatchNameConvention.descriptionsLoop_eq_find, hrule]

/-- The verdict of the body of the loop for a description: `Valid` when the name has the
required start and the required end, `Invalid` when it lacks one of them. -/
theorem DoesAssetMatchNameConvention.descriptionBody_verdict
    (r : FNamingConventionValidationClassDescription) (asset_name error_message : String) :
    (DoesAssetMatchNameConvention.descriptionBody r asset_name error_message).1 =
      if (FString.IsEmpty r.Prefix = true ∨ FString.StartsWith asset_name r.Prefix = true) ∧
          (FString.IsEmpty r.Suffix = true ∨ FString.EndsWith asset_name r.Suffix = true) then
        ENamingConventionValidationResult.Valid
      else ENamingConventionValidationResult.Invalid := by
  unfold DoesAssetMatchNameConvention.descriptionBody
  cases FString.IsEmpty r.Prefix <;> cases FString.StartsWith asset_name r.Prefix <;>
    cases FString.IsEmpty r.Suffix <;> cases FString.EndsWith asset_name r.Suffix <;> simp

/-- C4: the rule applied to an asset that is not excluded is the first class description,
in table order, whose class the asset class is a child of.  When the table is
`before ++ rB :: after`, no description of `before` matches and `rB` does, the verdict is
the one the start and the end required by `rB` give, and it is the same whatever
descriptions follow `rB`, a description of the very class of the asset included. -/
theorem IsAssetNamedCorrectly_first_matching_description
    (M : UNamingConventionValidationManager) (E : Engine) (asset_data : FAssetData)
    (error_message asset_class : String) (asset_real_class : UClass)
    (before after : List FNamingConventionValidationClassDescription)
    (rB : FNamingConventionValidationClassDescription)
    (hpath : M.IsPathExcludedFromValidation asset_data.PackageName = false)
    (hclass : TryGetAssetDataRealClass "None" asset_data = (true, asset_class))
    (hload : E.TryLoadClass asset_class = some asset_real_class)
    (hnotex : ∀ x ∈ M.ExcludedClasses, asset_real_class.IsChildOf (some x) = false)
    (htable : M.ClassDescriptions = before ++ rB :: after)
    (hbefore : ∀ d ∈ before, asset_real_class.IsChildOf d.Class = false)
    (hB : asset_real_class.IsChildOf rB.Class = true) :
    (M.IsAssetNamedCorrectly E asset_data error_message).1 =
        (if (FString.IsEmpty rB.Prefix = true
              ∨ FString.StartsWith asset_data.AssetName rB.Prefix = true) ∧
            (FString.IsEmpty rB.Suffix = true
              ∨ FString.EndsWith asset_data.AssetName rB.Suffix = true) then
          ENamingConventionValidationResult.Valid
        else ENamingConventionValidationResult.Invalid) ∧
      ∀ other : List FNamingConventionValidationClassDescription,
        UNamingConventionValidationManager.IsAssetNamedCorrectly
            { M with ClassDescriptions := before ++ rB :: other } E asset_data error_message =
          M.IsAssetNamedCorrectly E asset_data error_message := by
  have hloop : DoesAssetMatchNameConvention.excludedLoop asset_real_class M.ExcludedClasses
      = false := by
    rw [← Bool.not_eq_true, DoesAssetMatchNameConvention.excludedLoop_eq_true_iff]
    rintro ⟨x, hx, hc⟩
    rw [hnotex x hx] at hc
    exact Bool.false_ne_true hc
  have hfind : ∀ other : List FNamingConventionValidationClassDescription,
      (before ++ rB :: other).find? (fun d => asset_real_class.IsChildOf d.Class) = some rB :=
    fun other => find_first_matching asset_real_class before other rB hbefore hB
  have hM := IsAssetNamedCorrectly_eq_descriptionBody M E asset_data error_message asset_class
    asset_real_class rB hpath hclass hload hloop (by rw [htable]; exact hfind after)
  refine ⟨?_, ?_⟩
  · rw [hM, DoesAssetMatchNameConvention.descriptionBody_verdict]
  · intro other
    rw [hM]
    exact IsAssetNamedCorrectly_eq_descriptionBody _ E asset_data error_message asset_class
      asset_real_class rB hpath hclass hload hloop (hfind other)

/-- The statement C4 on a two-dimensional texture named `T_Wood`, with the rule of textures
(`T_`) listed before the rule of two-dimensional textures (`T2D_`): the asset is `Valid`
by the rule of textures, where the rule of its own class makes its name `Invalid`. -/
theorem IsAssetNamedCorrectly_first_matching_description_witness :
    (ProjectManager.IsAssetNamedCorrectly ProjectEngine WoodAsset "").1 =
        ENamingConventionValidationResult.Valid ∧
      (DoesAssetMatchNameConvention.descriptionBody Texture2DDescription WoodAsset.AssetName
        "").1 = ENamingConventionValidationResult.Invalid :=
  ⟨(IsAssetNamedCorrectly_first_matching_description ProjectManager ProjectEngine WoodAsset ""
    "/Script/Engine.Texture2D" Texture2DClass [StaticMeshDescription] [Texture2DDescription]
    TextureDescription (by decide) rfl rfl (by decide) rfl (by decide) (by decide)).1.trans
    (by decide), by decide⟩

/-- The excluded classes loop returns false when the asset class is a child of no
excluded class. -/
theorem DoesAssetMatchNameConvention.excludedLoop_eq_false (c : UClass) (xs : List UClass)
    (h : ∀ x ∈ xs, c.IsChildOf (some x) = false) :
    DoesAssetMatchNameConvention.excludedLoop c xs = false := by
  rw [← Bool.not_eq_true, DoesAssetMatchNameConvention.excludedLoop_eq_true_iff]
  rintro ⟨x, hx, hc⟩
  rw [h x hx] at hc
  exact Bool.false_ne_true hc

/-- C5, as stated, fails on two static meshes of the project: the one named `sm_cube` is
`Valid` by the rule that requires the start `SM_`, which its name does not start with,
and the one named `SM_Cube_lod` is `Valid` by the rule that requires the start `SM_` and
the end `_LOD`, which its name does not end with. -/
theorem matching_description_Valid_in_small_letters :
    (ProjectManager.ClassDescriptions.find?
        (fun d => StaticMeshClass.IsChildOf d.Class) = some StaticMeshDescription ∧
      StaticMeshDescription.Prefix = "SM_" ∧
      ¬ ("SM_".data <+: SmallLettersCubeAsset.AssetName.data) ∧
      (ProjectManager.IsAssetNamedCorrectly ProjectEngine SmallLettersCubeAsset "").1 =
        ENamingConventionValidationResult.Valid) ∧
    (LodManager.ClassDescriptions.find?
        (fun d => StaticMeshClass.IsChildOf d.Class) = some StaticMeshLodDescription ∧
      StaticMeshLodDescription.Suffix = "_LOD" ∧
      ¬ ("_LOD".data <:+ SmallLettersLodAsset.AssetName.data) ∧
      (LodManager.IsAssetNamedCorrectly ProjectEngine SmallLettersLodAsset "").1 =
        ENamingConventionValidationResult.Valid) := by
  decide

/-- C5, amended: for an asset that is not excluded and whose class has a matching class
description, `r` being the first one, the verdict is `Valid` exactly when the name starts
with the start `r` requires, if it requires one, and ends with the end `r` requires, if it
requires one, the letters being compared without regard to their case; it is `Invalid`
otherwise.  It is neither `Unknown` nor `Excluded`, and it is `Valid` for every name when
`r` requires neither. -/
theorem IsAssetNamedCorrectly_matching_description
    (M : UNamingConventionValidationManager) (E : Engine) (asset_data : FAssetData)
    (error_message asset_class : String) (asset_real_class : UClass)
    (r : FNamingConventionValidationClassDescription)
    (hpath : M.IsPathExcludedFromValidation asset_data.PackageName = false)
    (hclass : TryGetAssetDataRealClass "None" asset_data = (true, asset_class))
    (hload : E.TryLoadClass asset_class = some asset_real_class)
    (hnotex : ∀ x ∈ M.ExcludedClasses, asset_real_class.IsChildOf (some x) = false)
    (hrule : M.ClassDescriptions.find? (fun d => asset_real_class.IsChildOf d.Class) = some r) :
    ((M.IsAssetNamedCorrectly E asset_data error_message).1 =
          ENamingConventionValidationResult.Valid ↔
        (r.Prefix = "" ∨
            r.Prefix.data.map Char.toLower <+: asset_data.AssetName.data.map Char.toLower) ∧
          (r.Suffix = "" ∨
            r.Suffix.data.map Char.toLower <:+ asset_data.AssetName.data.map Char.toLower)) ∧
      ((M.IsAssetNamedCorrectly E asset_data error_message).1 =
          ENamingConventionValidationResult.Invalid ↔
        ¬ ((r.Prefix = "" ∨
            r.Prefix.data.map Char.toLower <+: asset_data.AssetName.data.map Char.toLower) ∧
          (r.Suffix = "" ∨
            r.Suffix.data.map Char.toLower <:+ asset_data.AssetName.data.map Char.toLower))) ∧
      (M.IsAssetNamedCorrectly E asset_data error_message).1 ≠
        ENamingConventionValidationResult.Unknown ∧
      (M.IsAssetNamedCorrectly E asset_data error_message).1 ≠
        ENamingConventionValidationResult.Excluded ∧
      (r.Prefix = "" → r.Suffix = "" →
        (M.IsAssetNamedCorrectly E asset_data error_message).1 =
          ENamingConventionValidationResult.Valid) := by
  have hM := IsAssetNamedCorrectly_eq_descriptionBody M E asset_data error_message asset_class
    asset_real_class r hpath hclass hload
    (DoesAssetMatchNameConvention.excludedLoop_eq_false _ _ hnotex) hrule
  have hempty : ∀ s : String, FString.IsEmpty s = true ↔ s = "" := by
    intro s
    unfold FString.IsEmpty
    rw [List.isEmpty_iff]
    exact ⟨fun hd => String.ext hd, fun hs => by rw [hs]⟩
  have hsw : FString.StartsWith asset_data.AssetName r.Prefix = true ↔
      r.Prefix ≠ "" ∧
        r.Prefix.data.map Char.toLower <+: asset_data.AssetName.data.map Char.toLower := by
    unfold FString.StartsWith FString.ToLower
    rw [Bool.and_eq_true, List.isPrefixOf_iff_prefix, Bool.not_eq_true', ← Bool.not_eq_true,
      hempty]
  have hew : FString.EndsWith asset_data.AssetName r.Suffix = true ↔
      r.Suffix ≠ "" ∧
        r.Suffix.data.map Char.toLower <:+ asset_data.AssetName.data.map Char.toLower := by
    unfold FString.EndsWith FString.ToLower
    rw [Bool.and_eq_true, List.isSuffixOf_iff_suffix, Bool.not_eq_true', ← Bool.not_eq_true,
      hempty]
  have hstart : (FString.IsEmpty r.Prefix = true
        ∨ FString.StartsWith asset_data.AssetName r.Prefix = true) ↔
      (r.Prefix = "" ∨
        r.Prefix.data.map Char.toLower <+: asset_data.AssetName.data.map Char.toLower) := by
    rw [hempty, hsw]
    by_cases hp : r.Prefix = ""
    · simp [hp]
    · simp [hp]
  have hend : (FString.IsEmpty r.Suffix = true
        ∨ FString.EndsWith asset_data.AssetName r.Suffix = true) ↔
      (r.Suffix = "" ∨
        r.Suffix.data.map Char.toLower <:+ asset_data.AssetName.data.map Char.toLower) := by
    rw [hempty, hew]
    by_cases hs : r.Suffix = ""
    · simp [hs]
    · simp [hs]
  rw [hM, DoesAssetMatchNameConvention.descriptionBody_verdict]
  by_cases hc : (r.Prefix = "" ∨
      r.Prefix.data.map Char.toLower <+: asset_data.AssetName.data.map Char.toLower) ∧
      (r.Suffix = "" ∨
        r.Suffix.data.map Char.toLower <:+ asset_data.AssetName.data.map Char.toLower)
  · rw [if_pos ⟨hstart.2 hc.1, hend.2 hc.2⟩]
    simp [hc]
  · rw [if_neg (fun h => hc ⟨hstart.1 h.1, hend.1 h.2⟩)]
    refine ⟨by simp [hc], by simp [hc], by simp, by simp, ?_⟩
    intro hp hs
    exact absurd ⟨Or.inl hp, Or.inl hs⟩ hc

/-- The amended statement C5 on three static meshes of the project: the one named `Cube`
is `Invalid` by the rule that requires the start `SM_`; by the rule that requires the
start `SM_` and the end `_LOD`, the one named `SM_Cube` is `Invalid` and the one named
`SM_Cube_LOD` is `Valid`. -/
theorem IsAssetNamedCorrectly_matching_description_witness :
    (ProjectManager.IsAssetNamedCorrectly ProjectEngine CubeAsset "").1 =
        ENamingConventionValidationResult.Invalid ∧
      (LodManager.IsAssetNamedCorrectly ProjectEngine SmCubeAsset "").1 =
        ENamingConventionValidationResult.Invalid ∧
      (LodManager.IsAssetNamedCorrectly ProjectEngine SmCubeLodAsset "").1 =
        ENamingConventionValidationResult.Valid :=
  ⟨(IsAssetNamedCorrectly_matching_description ProjectManager ProjectEngine CubeAsset ""
      "/Script/Engine.StaticMesh" StaticMeshClass StaticMeshDescription (by decide) rfl rfl
      (by decide) (by decide)).2.1.2 (by decide),
    (IsAssetNamedCorrectly_matching_description LodManager ProjectEngine SmCubeAsset ""
      "/Script/Engine.StaticMesh" StaticMeshClass StaticMeshLodDescription (by decide) rfl rfl
      (by decide) (by decide)).2.1.2 (by decide),
    (IsAssetNamedCorrectly_matching_description LodManager ProjectEngine SmCubeLodAsset ""
      "/Script/Engine.StaticMesh" StaticMeshClass StaticMeshLodDescription (by decide) rfl rfl
      (by decide) (by decide)).1.2 (by decide)⟩

/-! ## The message of an invalid name -/


/-- C6, on the code: with a rule that requires the start `SM_` and the end `_LOD`, the
static mesh named `SM_Cube` has the required start and lacks the required end; it is
`Invalid`, and the message names the start `SM_` as the end to have, the required end
`_LOD` not occurring in it. -/
theorem IsAssetNamedCorrectly_wrong_suffix_message :
    LodManager.IsAssetNamedCorrectly ProjectEngine SmCubeAsset "" =
        (ENamingConventionValidationResult.Invalid,
          "Assets of class \x27/Script/Engine.StaticMesh\x27 must have a name which ends with SM_") ∧
      FString.StartsWith SmCubeAsset.AssetName StaticMeshLodDescription.Prefix = true ∧
      FString.EndsWith SmCubeAsset.AssetName StaticMeshLodDescription.Suffix = false ∧
      FString.Contains (LodManager.IsAssetNamedCorrectly ProjectEngine SmCubeAsset "").2
        StaticMeshLodDescription.Suffix = false := by
  refine ⟨by rfl, by decide, by decide, by rfl⟩

/-- The message of the body of the loop for a description: the one of the start when the
name lacks the required start, and otherwise, when the name lacks the required end, the
one of the end formatted with the required start. -/
theorem DoesAssetMatchNameConvention.descriptionBody_message
    (r : FNamingConventionValidationClassDescription) (asset_name error_message : String) :
    (FString.IsEmpty r.Prefix = false → FString.StartsWith asset_name r.Prefix = false →
      DoesAssetMatchNameConvention.descriptionBody r asset_name error_message =
        (ENamingConventionValidationResult.Invalid, WrongPrefixText r.ClassPath r.Prefix)) ∧
    ((FString.IsEmpty r.Prefix = true ∨ FString.StartsWith asset_name r.Prefix = true) →
      FString.IsEmpty r.Suffix = false → FString.EndsWith asset_name r.Suffix = false →
      DoesAssetMatchNameConvention.descriptionBody r asset_name error_message =
        (ENamingConventionValidationResult.Invalid, WrongSuffixText r.ClassPath r.Prefix)) := by
  unfold DoesAssetMatchNameConvention.descriptionBody
  constructor
  · intro h1 h2
    simp [h1, h2]
  · intro h1 h2 h3
    rcases h1 with h1 | h1 <;> simp [h1, h2, h3]

/-! ## Assets without a matching class description -/

/-- C7, as stated, fails on two blueprints of the project whose class, the actor class,
has no class description: the one named `bp_door` is `Valid` with the prefix `BP_`, which
its name does not start with; the one named `Door` is `Invalid` with an empty prefix,
which every name starts with. -/
theorem no_matching_description_Blueprint_start :
    (ProjectManager.BlueprintsPrefix = "BP_" ∧
      ¬ ("BP_".data <+: SmallLettersDoorAsset.AssetName.data) ∧
      (ProjectManager.IsAssetNamedCorrectly ProjectEngine SmallLettersDoorAsset "").1 =
        ENamingConventionValidationResult.Valid) ∧
    (EmptyBlueprintsPrefixManager.BlueprintsPrefix = "" ∧
      "".data <+: DoorAsset.AssetName.data ∧
      (EmptyBlueprintsPrefixManager.IsAssetNamedCorrectly ProjectEngine DoorAsset "").1 =
        ENamingConventionValidationResult.Invalid) := by
  decide

/-- C7, amended: for an asset that is not excluded, whose class loads and is a child of
the class of no class description, when the asset class is `Blueprint` and
`BlueprintsPrefix` is not empty, the verdict is `Valid` when the name starts with
`BlueprintsPrefix`, the letters being compared without regard to their case, and
`Invalid` when it does not; when the asset class is not `Blueprint` the verdict is
`Unknown`.  The names of asset classes are compared without regard to the case of their
letters. -/
theorem IsAssetNamedCorrectly_no_matching_description
    (M : UNamingConventionValidationManager) (E : Engine) (asset_data : FAssetData)
    (error_message asset_class : String) (asset_real_class : UClass)
    (hpath : M.IsPathExcludedFromValidation asset_data.PackageName = false)
    (hclass : TryGetAssetDataRealClass "None" asset_data = (true, asset_class))
    (hload : E.TryLoadClass asset_class = some asset_real_class)
    (hnotex : ∀ x ∈ M.ExcludedClasses, asset_real_class.IsChildOf (some x) = false)
    (hnone : ∀ d ∈ M.ClassDescriptions, asset_real_class.IsChildOf d.Class = false) :
    (asset_data.AssetClass.data.map Char.toLower = "Blueprint".data.map Char.toLower →
        M.BlueprintsPrefix ≠ "" →
        ((M.IsAssetNamedCorrectly E asset_data error_message).1 =
            ENamingConventionValidationResult.Valid ↔
          M.BlueprintsPrefix.data.map Char.toLower
            <+: asset_data.AssetName.data.map Char.toLower) ∧
        ((M.IsAssetNamedCorrectly E asset_data error_message).1 =
            ENamingConventionValidationResult.Invalid ↔
          ¬ (M.BlueprintsPrefix.data.map Char.toLower
            <+: asset_data.AssetName.data.map Char.toLower))) ∧
      (asset_data.AssetClass.data.map Char.toLower ≠ "Blueprint".data.map Char.toLower →
        (M.IsAssetNamedCorrectly E asset_data error_message).1 =
          ENamingConventionValidationResult.Unknown) := by
  have hfind : M.ClassDescriptions.find? (fun d => asset_real_class.IsChildOf d.Class) = none := by
    rw [List.find?_eq_none]
    intro d hd
    simp [hnone d hd]
  have hM : M.IsAssetNamedCorrectly E asset_data error_message =
      DoesAssetMatchNameConvention.blueprint M asset_data error_message := by
    rw [IsAssetNamedCorrectly_eq_DoesAssetMatchNameConvention M E asset_data error_message
      asset_class hpath hclass]
    simp [UNamingConventionValidationManager.DoesAssetMatchNameConvention, hload,
      DoesAssetMatchNameConvention.excludedLoop_eq_false _ _ hnotex,
      DoesAssetMatchNameConvention.descriptionsLoop_eq_find, hfind]
  have hname : FName.Equals asset_data.AssetClass "Blueprint" = true ↔
      asset_data.AssetClass.data.map Char.toLower = "Blueprint".data.map Char.toLower := by
    simp [FName.Equals, FString.ToLower]
  rw [hM]
  unfold DoesAssetMatchNameConvention.blueprint
  constructor
  · intro hbp hne
    have hsw : FString.StartsWith asset_data.AssetName M.BlueprintsPrefix = true ↔
        M.BlueprintsPrefix ≠ "" ∧ M.BlueprintsPrefix.data.map Char.toLower
          <+: asset_data.AssetName.data.map Char.toLower := by
      unfold FString.StartsWith FString.ToLower FString.IsEmpty
      rw [Bool.and_eq_true, List.isPrefixOf_iff_prefix, Bool.not_eq_true', ← Bool.not_eq_true,
        List.isEmpty_iff]
      exact ⟨fun h => ⟨fun hs => h.1 (by rw [hs]), h.2⟩,
        fun h => ⟨fun hd => h.1 (String.ext hd), h.2⟩⟩
    rw [if_pos (hname.2 hbp)]
    by_cases hstart : M.BlueprintsPrefix.data.map Char.toLower
        <+: asset_data.AssetName.data.map Char.toLower
    · have h1 : FString.StartsWith asset_data.AssetName M.BlueprintsPrefix = true :=
        hsw.2 ⟨hne, hstart⟩
      simp [h1, hstart]
    · have h1 : FString.StartsWith asset_data.AssetName M.BlueprintsPrefix = false := by
        rw [← Bool.not_eq_true]
        exact fun h => hstart (hsw.1 h).2
      simp [h1, hstart]
  · intro hbp
    rw [if_neg (fun h => hbp (hname.1 h))]

/-- The amended statement C7 on three assets of the project whose class, the actor class,
has no class description: with the prefix `BP_`, the blueprint named `Door` is `Invalid`
and the blueprint named `BP_Door` is `Valid`; the asset named `Thing`, which is not a
blueprint, is `Unknown`. -/
theorem IsAssetNamedCorrectly_no_matching_description_witness :
    (ProjectManager.IsAssetNamedCorrectly ProjectEngine DoorAsset "").1 =
        ENamingConventionValidationResult.Invalid ∧
      (ProjectManager.IsAssetNamedCorrectly ProjectEngine BpDoorAsset "").1 =
        ENamingConventionValidationResult.Valid ∧
      (ProjectManager.IsAssetNamedCorrectly ProjectEngine ActorAsset "").1 =
        ENamingConventionValidationResult.Unknown :=
  ⟨((IsAssetNamedCorrectly_no_matching_description ProjectManager ProjectEngine DoorAsset ""
      "/Script/Engine.Actor" ActorClass (by decide) rfl rfl (by decide) (by decide)).1
      (by decide) (by decide)).2.2 (by decide),
    ((IsAssetNamedCorrectly_no_matching_description ProjectManager ProjectEngine BpDoorAsset ""
      "/Script/Engine.Actor" ActorClass (by decide) rfl rfl (by decide) (by decide)).1
      (by decide) (by decide)).1.2 (by decide),
    (IsAssetNamedCorrectly_no_matching_description ProjectManager ProjectEngine ActorAsset ""
      "/Script/Engine.Actor" ActorClass (by decide) rfl rfl (by decide) (by decide)).2
      (by decide)⟩

/-! ## The renamed asset -/

theorem FString.Equals_self (a : String) : FString.Equals a a = true := by
  simp [FString.Equals]

/-- A string that is not empty has a positive length. -/
theorem FString.length_pos_of_IsEmpty_eq_false (a : String) (h : FString.IsEmpty a = false) :
    0 < a.length := by
  have hne : a.data ≠ [] := by simpa [FString.IsEmpty] using h
  exact List.length_pos.2 hne

/-- The loop of the rename stops with the body of the first description whose class the
asset class is a child of, and leaves the name unchanged when there is none. -/
theorem GetRenamedAssetSoftObjectPath.renameLoop_eq_find
    (c : UClass) (renamed_name : String)
    (ds : List FNamingConventionValidationClassDescription) :
    GetRenamedAssetSoftObjectPath.descriptionsLoop c renamed_name ds =
      match ds.find? (fun d => c.IsChildOf d.Class) with
      | some r => GetRenamedAssetSoftObjectPath.descriptionBody r renamed_name
      | none => renamed_name := by
  induction ds with
  | nil => simp [GetRenamedAssetSoftObjectPath.descriptionsLoop]
  | cons d ds ih =>
    by_cases h : c.IsChildOf d.Class = true
    · simp [GetRenamedAssetSoftObjectPath.descriptionsLoop, h]
    · simp [GetRenamedAssetSoftObjectPath.descriptionsLoop, h, ih]

/-- The body of the rename puts the start and the end of the description around the
name. -/
theorem GetRenamedAssetSoftObjectPath.descriptionBody_eq
    (r : FNamingConventionValidationClassDescription) (renamed_name : String) :
    GetRenamedAssetSoftObjectPath.descriptionBody r renamed_name =
      r.Prefix ++ renamed_name ++ r.Suffix := by
  have hempty : ∀ s : String, FString.IsEmpty s = true → s = "" := by
    intro s hs
    have hd : s.data = [] := by simpa [FString.IsEmpty] using hs
    exact String.ext hd
  unfold GetRenamedAssetSoftObjectPath.descriptionBody
  cases hp : FString.IsEmpty r.Prefix <;> cases hs : FString.IsEmpty r.Suffix
  · simp
  · simp [hempty _ hs]
  · simp [hempty _ hp]
  · simp [hempty _ hp, hempty _ hs]

/-- A name with a non-empty start or end put around it is not equal to the name. -/
theorem FString.Equals_around_eq_false (p s x : String)
    (h : FString.IsEmpty p = false ∨ FString.IsEmpty x = false) :
    FString.Equals (p ++ s ++ x) s = false := by
  rw [← Bool.not_eq_true]
  intro he
  have hl := FString.Equals_length _ _ he
  rw [String.length_append, String.length_append] at hl
  rcases h with h | h
  · have := FString.length_pos_of_IsEmpty_eq_false _ h
    omega
  · have := FString.length_pos_of_IsEmpty_eq_false _ h
    omega

/-- The renamed name of an asset whose class has `r` as first matching description, when
`r` requires a start or an end: the start, the name and the end. -/
theorem RenamedName_of_matching_description
    (M : UNamingConventionValidationManager) (E : Engine) (asset_data : FAssetData)
    (asset_class : String) (asset_real_class : UClass)
    (r : FNamingConventionValidationClassDescription)
    (hclass : TryGetAssetDataRealClass "None" asset_data = (true, asset_class))
    (hload : E.TryLoadClass asset_class = some asset_real_class)
    (hrule : M.ClassDescriptions.find? (fun d => asset_real_class.IsChildOf d.Class) = some r)
    (hreq : FString.IsEmpty r.Prefix = false ∨ FString.IsEmpty r.Suffix = false) :
    M.RenamedName E asset_data = r.Prefix ++ asset_data.AssetName ++ r.Suffix := by
  simp [UNamingConventionValidationManager.RenamedName, hclass, hload,
    GetRenamedAssetSoftObjectPath.renameLoop_eq_find, hrule,
    GetRenamedAssetSoftObjectPath.descriptionBody_eq,
    FString.Equals_around_eq_false _ _ _ hreq]

/-- The renamed name of an asset whose class does not load, or loads and has no matching
description: `BlueprintsPrefix` and the name when the asset class is `Blueprint`, the
name otherwise. -/
theorem RenamedName_of_no_matching_description
    (M : UNamingConventionValidationManager) (E : Engine) (asset_data : FAssetData)
    (asset_class : String)
    (hclass : TryGetAssetDataRealClass "None" asset_data = (true, asset_class))
    (hnone : E.TryLoadClass asset_class = none ∨
      ∃ c, E.TryLoadClass asset_class = some c ∧
        M.ClassDescriptions.find? (fun d => c.IsChildOf d.Class) = none) :
    M.RenamedName E asset_data =
      if FName.Equals asset_data.AssetClass "Blueprint" then
        M.BlueprintsPrefix ++ asset_data.AssetName
      else asset_data.AssetName := by
  rcases hnone with hload | ⟨c, hload, hfind⟩
  · simp [UNamingConventionValidationManager.RenamedName, hclass, hload, FString.Equals_self]
  · simp [UNamingConventionValidationManager.RenamedName, hclass, hload,
      GetRenamedAssetSoftObjectPath.renameLoop_eq_find, hfind, FString.Equals_self]

/-- The body of the loop accepts a name that has the start and the end of the description
around it. -/
theorem DoesAssetMatchNameConvention.descriptionBody_around
    (r : FNamingConventionValidationClassDescription) (asset_name error_message : String) :
    (DoesAssetMatchNameConvention.descriptionBody r (r.Prefix ++ asset_name ++ r.Suffix)
      error_message).1 = ENamingConventionValidationResult.Valid := by
  rw [DoesAssetMatchNameConvention.descriptionBody_verdict, if_pos]
  constructor
  · cases hp : FString.IsEmpty r.Prefix
    · exact Or.inr (FString.StartsWith_Append _ _ _ (FString.StartsWith_InsertAt _ _ hp))
    · exact Or.inl rfl
  · cases hs : FString.IsEmpty r.Suffix
    · exact Or.inr (FString.EndsWith_Append _ _ hs)
    · exact Or.inl rfl

/-- The renamed asset has the tags of the asset, so that the class lookup finds what it
found. -/
theorem TryGetAssetDataRealClass_RenamedAssetData
    (M : UNamingConventionValidationManager) (E : Engine) (asset_data : FAssetData)
    (asset_class : String) :
    TryGetAssetDataRealClass asset_class (M.RenamedAssetData E asset_data) =
      TryGetAssetDataRealClass asset_class asset_data := by
  simp [TryGetAssetDataRealClass, UNamingConventionValidationManager.RenamedAssetData]

/-- The rename is idempotent for the classification when the prefix of generic blueprints
is not empty: the renamed asset of an `Invalid` asset is not `Invalid`. -/
theorem IsAssetNamedCorrectly_RenamedAssetData_of_BlueprintsPrefix
    (M : UNamingConventionValidationManager) (E : Engine) (asset_data : FAssetData)
    (error_message error_message2 : String)
    (hbp : FString.IsEmpty M.BlueprintsPrefix = false)
    (hinv : (M.IsAssetNamedCorrectly E asset_data error_message).1 =
      ENamingConventionValidationResult.Invalid) :
    (M.IsAssetNamedCorrectly E (M.RenamedAssetData E asset_data) error_message2).1 ≠
      ENamingConventionValidationResult.Invalid := by
  -- the asset is not excluded by its path and its class name was found
  cases hpath : M.IsPathExcludedFromValidation asset_data.PackageName
  swap
  · simp [UNamingConventionValidationManager.IsAssetNamedCorrectly, hpath] at hinv
  rcases hres : TryGetAssetDataRealClass "None" asset_data with ⟨flag, asset_class⟩
  cases flag
  · simp [UNamingConventionValidationManager.IsAssetNamedCorrectly, hpath, hres] at hinv
  rw [IsAssetNamedCorrectly_eq_DoesAssetMatchNameConvention M E asset_data error_message
    asset_class hpath hres] at hinv
  -- the renamed asset
  cases hpath2 : M.IsPathExcludedFromValidation (M.RenamedAssetData E asset_data).PackageName
  swap
  · simp [UNamingConventionValidationManager.IsAssetNamedCorrectly, hpath2]
  have hres2 : TryGetAssetDataRealClass "None" (M.RenamedAssetData E asset_data)
      = (true, asset_class) := by
    rw [TryGetAssetDataRealClass_RenamedAssetData, hres]
  rw [IsAssetNamedCorrectly_eq_DoesAssetMatchNameConvention M E _ error_message2
    asset_class hpath2 hres2]
  have hname : (M.RenamedAssetData E asset_data).AssetName = M.RenamedName E asset_data := rfl
  have hcls : (M.RenamedAssetData E asset_data).AssetClass = asset_data.AssetClass := rfl
  -- the generic blueprints
  have hblue : (DoesAssetMatchNameConvention.blueprint M asset_data error_message).1 =
        ENamingConventionValidationResult.Invalid →
      M.RenamedName E asset_data =
        (if FName.Equals asset_data.AssetClass "Blueprint" then
          M.BlueprintsPrefix ++ asset_data.AssetName
        else asset_data.AssetName) →
      (DoesAssetMatchNameConvention.blueprint M (M.RenamedAssetData E asset_data)
        error_message2).1 ≠ ENamingConventionValidationResult.Invalid := by
    intro h1 h2
    unfold DoesAssetMatchNameConvention.blueprint at h1 ⊢
    rw [hname, hcls, h2]
    cases hb : FName.Equals asset_data.AssetClass "Blueprint"
    · simp
    · simp [FString.StartsWith_InsertAt _ _ hbp]
  unfold UNamingConventionValidationManager.DoesAssetMatchNameConvention at hinv ⊢
  cases hload : E.TryLoadClass asset_class with
  | none =>
    rw [hload] at hinv
    exact hblue hinv (RenamedName_of_no_matching_description M E asset_data asset_class hres
      (Or.inl hload))
  | some c =>
    rw [hload] at hinv
    simp only at hinv ⊢
    cases hex : DoesAssetMatchNameConvention.excludedLoop c M.ExcludedClasses
    swap
    · simp
    rw [hex] at hinv
    simp only [Bool.false_eq_true, if_false] at hinv ⊢
    rw [DoesAssetMatchNameConvention.descriptionsLoop_eq_find] at hinv ⊢
    cases hfind : M.ClassDescriptions.find? (fun d => c.IsChildOf d.Class) with
    | none =>
      rw [hfind] at hinv
      exact hblue hinv (RenamedName_of_no_matching_description M E asset_data asset_class hres
        (Or.inr ⟨c, hload, hfind⟩))
    | some r =>
      rw [hfind] at hinv
      simp only [Option.map_some'] at hinv ⊢
      have hreq : FString.IsEmpty r.Prefix = false ∨ FString.IsEmpty r.Suffix = false := by
        rw [DoesAssetMatchNameConvention.descriptionBody_verdict] at hinv
        by_contra hcon
        simp only [not_or, Bool.not_eq_false] at hcon
        simp [hcon.1, hcon.2] at hinv
      rw [hname, RenamedName_of_matching_description M E asset_data asset_class c r hres hload
        hfind hreq, DoesAssetMatchNameConvention.descriptionBody_around]
      simp

/-- The example of the rule of static meshes: the static mesh named `Cube` is `Invalid`,
its renamed name is `SM_Cube`, and the renamed asset is `Valid`. -/
theorem IsAssetNamedCorrectly_RenamedAssetData_Cube :
    (ProjectManager.IsAssetNamedCorrectly ProjectEngine CubeAsset "").1 =
        ENamingConventionValidationResult.Invalid ∧
      ProjectManager.RenamedName ProjectEngine CubeAsset = "SM_Cube" ∧
      (ProjectManager.IsAssetNamedCorrectly ProjectEngine
        (ProjectManager.RenamedAssetData ProjectEngine CubeAsset) "").1 =
        ENamingConventionValidationResult.Valid := by
  decide

/-- C8, on the code: with an empty `BlueprintsPrefix`, the blueprint named `Door`, whose
parent class has no class description, is `Invalid`; the rename proposes the path it has,
and the renamed asset, which is the asset itself, is `Invalid` again. -/
theorem IsAssetNamedCorrectly_RenamedAssetData_empty_BlueprintsPrefix :
    (EmptyBlueprintsPrefixManager.IsAssetNamedCorrectly ProjectEngine DoorAsset "").1 =
        ENamingConventionValidationResult.Invalid ∧
      EmptyBlueprintsPrefixManager.GetRenamedAssetSoftObjectPath ProjectEngine DoorAsset =
        "/Game/Blueprints/Door.Door" ∧
      EmptyBlueprintsPrefixManager.RenamedAssetData ProjectEngine DoorAsset = DoorAsset ∧
      (EmptyBlueprintsPrefixManager.IsAssetNamedCorrectly ProjectEngine
        (EmptyBlueprintsPrefixManager.RenamedAssetData ProjectEngine DoorAsset) "").1 =
        ENamingConventionValidationResult.Invalid := by
  decide

/-- The renamed name of an `Invalid` asset whose class has `r` as first matching
description: the start `r` requires, the name and the end `r` requires, whether or not
the name has one of them already. -/
theorem RenamedName_of_Invalid
    (M : UNamingConventionValidationManager) (E : Engine) (asset_data : FAssetData)
    (error_message asset_class : String) (asset_real_class : UClass)
    (r : FNamingConventionValidationClassDescription)
    (hpath : M.IsPathExcludedFromValidation asset_data.PackageName = false)
    (hclass : TryGetAssetDataRealClass "None" asset_data = (true, asset_class))
    (hload : E.TryLoadClass asset_class = some asset_real_class)
    (hnotex : ∀ x ∈ M.ExcludedClasses, asset_real_class.IsChildOf (some x) = false)
    (hrule : M.ClassDescriptions.find? (fun d => asset_real_class.IsChildOf d.Class) = some r)
    (hinv : (M.IsAssetNamedCorrectly E asset_data error_message).1 =
      ENamingConventionValidationResult.Invalid) :
    M.RenamedName E asset_data = r.Prefix ++ asset_data.AssetName ++ r.Suffix := by
  apply RenamedName_of_matching_description M E asset_data asset_class asset_real_class r
    hclass hload hrule
  rw [IsAssetNamedCorrectly_eq_descriptionBody M E asset_data error_message asset_class
    asset_real_class r hpath hclass hload
    (DoesAssetMatchNameConvention.excludedLoop_eq_false _ _ hnotex) hrule,
    DoesAssetMatchNameConvention.descriptionBody_verdict] at hinv
  by_contra hcon
  simp only [not_or, Bool.not_eq_false] at hcon
  simp [hcon.1, hcon.2] at hinv

/-- C9, on the code: with a rule that requires the start `SM_` and the end `_LOD`, the
static mesh named `SM_Cube`, which has the start and lacks the end, is `Invalid`, and its
renamed name is `SM_SM_Cube_LOD`: the start is put a second time, where adding what is
missing gives `SM_Cube_LOD`. -/
theorem RenamedName_adds_prefix_twice :
    (LodManager.IsAssetNamedCorrectly ProjectEngine SmCubeAsset "").1 =
        ENamingConventionValidationResult.Invalid ∧
      FString.StartsWith SmCubeAsset.AssetName StaticMeshLodDescription.Prefix = true ∧
      FString.EndsWith SmCubeAsset.AssetName StaticMeshLodDescription.Suffix = false ∧
      LodManager.RenamedName ProjectEngine SmCubeAsset = "SM_SM_Cube_LOD" ∧
      LodManager.RenamedName ProjectEngine SmCubeAsset ≠
        "" ++ SmCubeAsset.AssetName ++ StaticMeshLodDescription.Suffix ∧
      LodManager.GetRenamedAssetSoftObjectPath ProjectEngine SmCubeAsset =
        "/Game/Meshes/SM_SM_Cube_LOD.SM_SM_Cube_LOD" := by
  decide

/-! ## The counters of `ValidateAssets` -/

/-- One pass of the body of the loop adds one to the sum of the checked and skipped files
and keeps the checked files equal to the valid, invalid and unvalidated ones. -/
theorem ValidateAssets.body_counters (M : UNamingConventionValidationManager) (E : Engine)
    (show_if_no_failures : Bool) (st : ValidateAssets.Locals) (asset_data : FAssetData) :
    (ValidateAssets.body M E show_if_no_failures st asset_data).num_files_checked
        + (ValidateAssets.body M E show_if_no_failures st asset_data).num_files_skipped
        = st.num_files_checked + st.num_files_skipped + 1 ∧
      (st.num_files_checked
          = st.num_valid_files + st.num_invalid_files + st.num_files_unable_to_validate →
        (ValidateAssets.body M E show_if_no_failures st asset_data).num_files_checked
          = (ValidateAssets.body M E show_if_no_failures st asset_data).num_valid_files
            + (ValidateAssets.body M E show_if_no_failures st asset_data).num_invalid_files
            + (ValidateAssets.body M E show_if_no_failures st
                asset_data).num_files_unable_to_validate) := by
  rcases hres : M.IsAssetNamedCorrectly E asset_data "" with ⟨verdict, message⟩
  cases verdict <;> simp only [ValidateAssets.body, hres] <;> constructor <;> intros <;> omega

/-- The loop adds the number of assets to the sum of the checked and skipped files and
keeps the checked files equal to the valid, invalid and unvalidated ones. -/
theorem ValidateAssets.loop_counters (M : UNamingConventionValidationManager) (E : Engine)
    (show_if_no_failures : Bool) (asset_data_list : List FAssetData) :
    ∀ st : ValidateAssets.Locals,
      (ValidateAssets.loop M E show_if_no_failures st asset_data_list).num_files_checked
          + (ValidateAssets.loop M E show_if_no_failures st asset_data_list).num_files_skipped
          = st.num_files_checked + st.num_files_skipped + asset_data_list.length ∧
        (st.num_files_checked
            = st.num_valid_files + st.num_invalid_files + st.num_files_unable_to_validate →
          (ValidateAssets.loop M E show_if_no_failures st asset_data_list).num_files_checked
            = (ValidateAssets.loop M E show_if_no_failures st asset_data_list).num_valid_files
              + (ValidateAssets.loop M E show_if_no_failures st
                  asset_data_list).num_invalid_files
              + (ValidateAssets.loop M E show_if_no_failures st
                  asset_data_list).num_files_unable_to_validate) := by
  induction asset_data_list with
  | nil =>
    intro st
    simp [ValidateAssets.loop]
  | cons asset_data rest ih =>
    intro st
    have hb := ValidateAssets.body_counters M E show_if_no_failures st asset_data
    have hl := ih (ValidateAssets.body M E show_if_no_failures st asset_data)
    simp only [ValidateAssets.loop, List.length_cons]
    refine ⟨by omega, fun h => hl.2 (hb.2 h)⟩

/-- The summary lines that end `ValidateAssets` leave the counters of the loop as they
are. -/
theorem ValidateAssetsLocals_counters (M : UNamingConventionValidationManager) (E : Engine)
    (asset_data_list : List FAssetData) (skip_excluded_directories show_if_no_failures : Bool) :
    (M.ValidateAssetsLocals E asset_data_list skip_excluded_directories
          show_if_no_failures).num_files_checked
        = (ValidateAssets.loop M E show_if_no_failures ValidateAssets.init
          asset_data_list).num_files_checked ∧
      (M.ValidateAssetsLocals E asset_data_list skip_excluded_directories
          show_if_no_failures).num_files_skipped
        = (ValidateAssets.loop M E show_if_no_failures ValidateAssets.init
          asset_data_list).num_files_skipped ∧
      (M.ValidateAssetsLocals E asset_data_list skip_excluded_directories
          show_if_no_failures).num_valid_files
        = (ValidateAssets.loop M E show_if_no_failures ValidateAssets.init
          asset_data_list).num_valid_files ∧
      (M.ValidateAssetsLocals E asset_data_list skip_excluded_directories
          show_if_no_failures).num_invalid_files
        = (ValidateAssets.loop M E show_if_no_failures ValidateAssets.init
          asset_data_list).num_invalid_files ∧
      (M.ValidateAssetsLocals E asset_data_list skip_excluded_directories
          show_if_no_failures).num_files_unable_to_validate
        = (ValidateAssets.loop M E show_if_no_failures ValidateAssets.init
          asset_data_list).num_files_unable_to_validate := by
  unfold UNamingConventionValidationManager.ValidateAssetsLocals
  simp only
  split <;> exact ⟨rfl, rfl, rfl, rfl, rfl⟩

/-- C10: for every list of assets, the counters of `ValidateAssets` are such that the
checked and the skipped files are together the assets of the list, and the checked files
are the valid, the invalid and the unvalidated files together. -/
theorem ValidateAssets_counters (M : UNamingConventionValidationManager) (E : Engine)
    (asset_data_list : List FAssetData) (skip_excluded_directories show_if_no_failures : Bool) :
    (M.ValidateAssetsLocals E asset_data_list skip_excluded_directories
          show_if_no_failures).num_files_checked
        + (M.ValidateAssetsLocals E asset_data_list skip_excluded_directories
          show_if_no_failures).num_files_skipped
        = asset_data_list.length ∧
      (M.ValidateAssetsLocals E asset_data_list skip_excluded_directories
          show_if_no_failures).num_files_checked
        = (M.ValidateAssetsLocals E asset_data_list skip_excluded_directories
            show_if_no_failures).num_valid_files
          + (M.ValidateAssetsLocals E asset_data_list skip_excluded_directories
            show_if_no_failures).num_invalid_files
          + (M.ValidateAssetsLocals E asset_data_list skip_excluded_directories
            show_if_no_failures).num_files_unable_to_validate := by
  obtain ⟨h1, h2, h3, h4, h5⟩ := ValidateAssetsLocals_counters M E asset_data_list
    skip_excluded_directories show_if_no_failures
  have hl := ValidateAssets.loop_counters M E show_if_no_failures asset_data_list
    ValidateAssets.init
  rw [h1, h2, h3, h4, h5]
  have hinit := hl.2 rfl
  have hsum := hl.1
  have h0 : ValidateAssets.init.num_files_checked + ValidateAssets.init.num_files_skipped = 0 :=
    rfl
  exact ⟨by omega, hinit⟩

/-! ## The tally of `ValidateAssets` -/

/-- One pass of the body of the loop adds one to the counter of the verdict of the asset,
and to the checked files unless the asset is `Excluded`. -/
theorem ValidateAssets.body_tally (M : UNamingConventionValidationManager) (E : Engine)
    (show_if_no_failures : Bool) (st : ValidateAssets.Locals) (asset_data : FAssetData) :
    (ValidateAssets.body M E show_if_no_failures st asset_data).num_files_skipped
        = st.num_files_skipped +
          (if (M.IsAssetNamedCorrectly E asset_data "").1
            = ENamingConventionValidationResult.Excluded then 1 else 0) ∧
      (ValidateAssets.body M E show_if_no_failures st asset_data).num_valid_files
        = st.num_valid_files +
          (if (M.IsAssetNamedCorrectly E asset_data "").1
            = ENamingConventionValidationResult.Valid then 1 else 0) ∧
      (ValidateAssets.body M E show_if_no_failures st asset_data).num_invalid_files
        = st.num_invalid_files +
          (if (M.IsAssetNamedCorrectly E asset_data "").1
            = ENamingConventionValidationResult.Invalid then 1 else 0) ∧
      (ValidateAssets.body M E show_if_no_failures st asset_data).num_files_unable_to_validate
        = st.num_files_unable_to_validate +
          (if (M.IsAssetNamedCorrectly E asset_data "").1
            = ENamingConventionValidationResult.Unknown then 1 else 0) := by
  rcases hres : M.IsAssetNamedCorrectly E asset_data "" with ⟨verdict, message⟩
  cases verdict <;> simp [ValidateAssets.body, hres]

/-- The loop adds to each counter the number of assets of the list with the verdict of
the counter. -/
theorem ValidateAssets.loop_tally (M : UNamingConventionValidationManager) (E : Engine)
    (show_if_no_failures : Bool) (asset_data_list : List FAssetData) :
    ∀ st : ValidateAssets.Locals,
      (ValidateAssets.loop M E show_if_no_failures st asset_data_list).num_files_skipped
          = st.num_files_skipped + asset_data_list.countP (fun a =>
            decide ((M.IsAssetNamedCorrectly E a "").1
              = ENamingConventionValidationResult.Excluded)) ∧
        (ValidateAssets.loop M E show_if_no_failures st asset_data_list).num_valid_files
          = st.num_valid_files + asset_data_list.countP (fun a =>
            decide ((M.IsAssetNamedCorrectly E a "").1
              = ENamingConventionValidationResult.Valid)) ∧
        (ValidateAssets.loop M E show_if_no_failures st asset_data_list).num_invalid_files
          = st.num_invalid_files + asset_data_list.countP (fun a =>
            decide ((M.IsAssetNamedCorrectly E a "").1
              = ENamingConventionValidationResult.Invalid)) ∧
        (ValidateAssets.loop M E show_if_no_failures st
            asset_data_list).num_files_unable_to_validate
          = st.num_files_unable_to_validate + asset_data_list.countP (fun a =>
            decide ((M.IsAssetNamedCorrectly E a "").1
              = ENamingConventionValidationResult.Unknown)) := by
  induction asset_data_list with
  | nil =>
    intro st
    simp [ValidateAssets.loop]
  | cons asset_data rest ih =>
    intro st
    obtain ⟨b1, b2, b3, b4⟩ := ValidateAssets.body_tally M E show_if_no_failures st asset_data
    obtain ⟨h1, h2, h3, h4⟩ := ih (ValidateAssets.body M E show_if_no_failures st asset_data)
    simp only [ValidateAssets.loop, List.countP_cons, decide_eq_true_eq]
    rw [h1, h2, h3, h4, b1, b2, b3, b4]
    refine ⟨?_, ?_, ?_, ?_⟩ <;> omega

/-- While there is no invalid file, the loop has logged no error. -/
theorem ValidateAssets.loop_no_error (M : UNamingConventionValidationManager) (E : Engine)
    (show_if_no_failures : Bool) (asset_data_list : List FAssetData) :
    ∀ st : ValidateAssets.Locals,
      (st.num_invalid_files = 0 →
        ∀ line ∈ st.data_validation_log, line.Severity ≠ EMessageSeverity.Error) →
      (ValidateAssets.loop M E show_if_no_failures st asset_data_list).num_invalid_files = 0 →
      ∀ line ∈ (ValidateAssets.loop M E show_if_no_failures st
        asset_data_list).data_validation_log, line.Severity ≠ EMessageSeverity.Error := by
  induction asset_data_list with
  | nil =>
    intro st hst h0
    exact hst h0
  | cons asset_data rest ih =>
    intro st hst h0
    simp only [ValidateAssets.loop] at h0 ⊢
    apply ih _ _ h0
    intro hb line hline
    rcases hres : M.IsAssetNamedCorrectly E asset_data "" with ⟨verdict, message⟩
    cases verdict <;> simp only [ValidateAssets.body, hres] at hb hline
    · omega
    · exact hst hb line hline
    · cases show_if_no_failures
      · exact hst hb line (by simpa using hline)
      · simp only [if_true, List.mem_append, List.mem_singleton] at hline
        rcases hline with hline | hline
        · exact hst hb line hline
        · rw [hline]; simp
    · simp only [List.mem_append, List.mem_singleton] at hline
      rcases hline with hline | hline
      · exact hst hb line hline
      · rw [hline]; simp

/-- C11: for every list of assets, `ValidateAssets` tallies each verdict in its own
counter: the skipped files are the `Excluded` assets, the valid files the `Valid` ones, the
invalid files the `Invalid` ones and the unvalidated files the `Unknown` ones.  It returns
the number of `Invalid` assets, and the log ends with the summary of a failed run exactly
when that number is not zero. -/
theorem ValidateAssets_tally (M : UNamingConventionValidationManager) (E : Engine)
    (asset_data_list : List FAssetData) (skip_excluded_directories show_if_no_failures : Bool) :
    (M.ValidateAssetsLocals E asset_data_list skip_excluded_directories
          show_if_no_failures).num_files_skipped
        = asset_data_list.countP (fun a =>
          decide ((M.IsAssetNamedCorrectly E a "").1
            = ENamingConventionValidationResult.Excluded)) ∧
      (M.ValidateAssetsLocals E asset_data_list skip_excluded_directories
          show_if_no_failures).num_valid_files
        = asset_data_list.countP (fun a =>
          decide ((M.IsAssetNamedCorrectly E a "").1
            = ENamingConventionValidationResult.Valid)) ∧
      (M.ValidateAssetsLocals E asset_data_list skip_excluded_directories
          show_if_no_failures).num_invalid_files
        = asset_data_list.countP (fun a =>
          decide ((M.IsAssetNamedCorrectly E a "").1
            = ENamingConventionValidationResult.Invalid)) ∧
      (M.ValidateAssetsLocals E asset_data_list skip_excluded_directories
          show_if_no_failures).num_files_unable_to_validate
        = asset_data_list.countP (fun a =>
          decide ((M.IsAssetNamedCorrectly E a "").1
            = ENamingConventionValidationResult.Unknown)) ∧
      M.ValidateAssets E asset_data_list skip_excluded_directories show_if_no_failures
        = asset_data_list.countP (fun a =>
          decide ((M.IsAssetNamedCorrectly E a "").1
            = ENamingConventionValidationResult.Invalid)) ∧
      ((∃ summary : String,
          (M.ValidateAssetsLocals E asset_data_list skip_excluded_directories
            show_if_no_failures).data_validation_log.getLast?
          = some ⟨EMessageSeverity.Error, ["NamingConvention Validation FAILED.", summary]⟩) ↔
        0 < asset_data_list.countP (fun a =>
          decide ((M.IsAssetNamedCorrectly E a "").1
            = ENamingConventionValidationResult.Invalid))) := by
  obtain ⟨-, h2, h3, h4, h5⟩ := ValidateAssetsLocals_counters M E asset_data_list
    skip_excluded_directories show_if_no_failures
  obtain ⟨t1, t2, t3, t4⟩ := ValidateAssets.loop_tally M E show_if_no_failures asset_data_list
    ValidateAssets.init
  have hinit : ValidateAssets.init.num_files_skipped = 0 ∧
      ValidateAssets.init.num_valid_files = 0 ∧ ValidateAssets.init.num_invalid_files = 0 ∧
      ValidateAssets.init.num_files_unable_to_validate = 0 := ⟨rfl, rfl, rfl, rfl⟩
  obtain ⟨i1, i2, i3, i4⟩ := hinit
  have hinv : (ValidateAssets.loop M E show_if_no_failures ValidateAssets.init
      asset_data_list).num_invalid_files = asset_data_list.countP (fun a =>
        decide ((M.IsAssetNamedCorrectly E a "").1
          = ENamingConventionValidationResult.Invalid)) := by
    rw [t3, i3, Nat.zero_add]
  refine ⟨by rw [h2, t1, i1, Nat.zero_add], by rw [h3, t2, i2, Nat.zero_add],
    by rw [h4, hinv], by rw [h5, t4, i4, Nat.zero_add], ?_, ?_⟩
  · unfold UNamingConventionValidationManager.ValidateAssets
    rw [h4, hinv]
  · rw [← hinv]
    unfold UNamingConventionValidationManager.ValidateAssetsLocals
    simp only
    by_cases hpos : 0 < (ValidateAssets.loop M E show_if_no_failures ValidateAssets.init
        asset_data_list).num_invalid_files
    · have hfailed : "NamingConvention Validation " ++ "FAILED" ++ "."
          = "NamingConvention Validation FAILED." := by decide
      simp [hpos, hfailed]
    · have hzero : (ValidateAssets.loop M E show_if_no_failures ValidateAssets.init
          asset_data_list).num_invalid_files = 0 := by omega
      have hlog := ValidateAssets.loop_no_error M E show_if_no_failures asset_data_list
        ValidateAssets.init (fun _ line hline => by simp [ValidateAssets.init] at hline) hzero
      simp only [hpos, iff_false, not_exists]
      intro summary hlast
      cases show_if_no_failures
      · simp only [hzero, gt_iff_lt, lt_self_iff_false, decide_False, Bool.or_self,
          Bool.false_eq_true, if_false] at hlast
        exact hlog _ (List.mem_of_getLast?_eq_some hlast) rfl
      · simp [hzero] at hlast

/-! ## The renames of `RenameAssets` -/

/-- The body of the loop of `RenameAssets` for an `Invalid` asset: one call of the rename
executor, counted as a rename when it succeeds and as a failure when it does not. -/
theorem RenameAssets.body_Invalid {σ : Type} (M : UNamingConventionValidationManager)
    (E : Engine) (module : IAssetTools σ) (show_if_no_failures : Bool)
    (st : RenameAssets.Locals σ) (asset_data : FAssetData)
    (h : (M.IsAssetNamedCorrectly E asset_data "").1 = ENamingConventionValidationResult.Invalid) :
    (RenameAssets.body M E module show_if_no_failures st asset_data).asset_tools
        = (module.RenameAssets st.asset_tools (M.AssetsToRename E asset_data)).2 ∧
      (RenameAssets.body M E module show_if_no_failures st asset_data).rename_calls
        = st.rename_calls ++ [M.AssetsToRename E asset_data] ∧
      (RenameAssets.body M E module show_if_no_failures st asset_data).num_files_renamed
        = st.num_files_renamed +
          (if (module.RenameAssets st.asset_tools (M.AssetsToRename E asset_data)).1 = true
            then 1 else 0) ∧
      (RenameAssets.body M E module show_if_no_failures st asset_data).num_files_failed
        = st.num_files_failed +
          (if (module.RenameAssets st.asset_tools (M.AssetsToRename E asset_data)).1 = true
            then 0 else 1) ∧
      (RenameAssets.body M E module show_if_no_failures st asset_data).num_files_checked
        = st.num_files_checked + 1 ∧
      (RenameAssets.body M E module show_if_no_failures st asset_data).num_files_skipped
        = st.num_files_skipped := by
  rcases hres : M.IsAssetNamedCorrectly E asset_data "" with ⟨verdict, message⟩
  rw [hres] at h
  simp only at h
  subst h
  rcases hcall : module.RenameAssets st.asset_tools (M.AssetsToRename E asset_data)
    with ⟨succeeded, asset_tools⟩
  have hcall2 : module.RenameAssets st.asset_tools
      [⟨asset_data.ToSoftObjectPath, M.GetRenamedAssetSoftObjectPath E asset_data⟩]
      = (succeeded, asset_tools) := hcall
  cases succeeded <;>
    simp [RenameAssets.body, hres, hcall2, UNamingConventionValidationManager.AssetsToRename]

/-- The body of the loop of `RenameAssets` for an asset that is not `Invalid`: no call of
the rename executor, no rename and no failure counted; the asset is skipped when it is
`Excluded` and checked when it is not. -/
theorem RenameAssets.body_not_Invalid {σ : Type} (M : UNamingConventionValidationManager)
    (E : Engine) (module : IAssetTools σ) (show_if_no_failures : Bool)
    (st : RenameAssets.Locals σ) (asset_data : FAssetData)
    (h : (M.IsAssetNamedCorrectly E asset_data "").1 ≠ ENamingConventionValidationResult.Invalid) :
    (RenameAssets.body M E module show_if_no_failures st asset_data).asset_tools
        = st.asset_tools ∧
      (RenameAssets.body M E module show_if_no_failures st asset_data).rename_calls
        = st.rename_calls ∧
      (RenameAssets.body M E module show_if_no_failures st asset_data).num_files_renamed
        = st.num_files_renamed ∧
      (RenameAssets.body M E module show_if_no_failures st asset_data).num_files_failed
        = st.num_files_failed ∧
      (RenameAssets.body M E module show_if_no_failures st asset_data).num_files_checked
        = st.num_files_checked +
          (if (M.IsAssetNamedCorrectly E asset_data "").1
            = ENamingConventionValidationResult.Excluded then 0 else 1) ∧
      (RenameAssets.body M E module show_if_no_failures st asset_data).num_files_skipped
        = st.num_files_skipped +
          (if (M.IsAssetNamedCorrectly E asset_data "").1
            = ENamingConventionValidationResult.Excluded then 1 else 0) := by
  rcases hres : M.IsAssetNamedCorrectly E asset_data "" with ⟨verdict, message⟩
  rw [hres] at h
  cases verdict <;> simp [RenameAssets.body, hres] at h ⊢

/-- The loop of `RenameAssets` calls the rename executor once for each `Invalid` asset of
the list, in the order of the list, and for no other asset; the renamed and failed files
are the calls that succeeded and the calls that did not. -/
theorem RenameAssets.loop_calls {σ : Type} (M : UNamingConventionValidationManager)
    (E : Engine) (module : IAssetTools σ) (show_if_no_failures : Bool)
    (asset_data_list : List FAssetData) :
    ∀ st : RenameAssets.Locals σ,
      (RenameAssets.loop M E module show_if_no_failures st asset_data_list).rename_calls
          = st.rename_calls ++ (asset_data_list.filter (fun a =>
              decide ((M.IsAssetNamedCorrectly E a "").1
                = ENamingConventionValidationResult.Invalid))).map (M.AssetsToRename E) ∧
        (RenameAssets.loop M E module show_if_no_failures st asset_data_list).asset_tools
          = (module.outcomes st.asset_tools ((asset_data_list.filter (fun a =>
              decide ((M.IsAssetNamedCorrectly E a "").1
                = ENamingConventionValidationResult.Invalid))).map (M.AssetsToRename E))).2 ∧
        (RenameAssets.loop M E module show_if_no_failures st asset_data_list).num_files_renamed
          = st.num_files_renamed + (module.outcomes st.asset_tools ((asset_data_list.filter
              (fun a => decide ((M.IsAssetNamedCorrectly E a "").1
                = ENamingConventionValidationResult.Invalid))).map
                  (M.AssetsToRename E))).1.count true ∧
        (RenameAssets.loop M E module show_if_no_failures st asset_data_list).num_files_failed
          = st.num_files_failed + (module.outcomes st.asset_tools ((asset_data_list.filter
              (fun a => decide ((M.IsAssetNamedCorrectly E a "").1
                = ENamingConventionValidationResult.Invalid))).map
                  (M.AssetsToRename E))).1.count false := by
  induction asset_data_list with
  | nil =>
    intro st
    simp [RenameAssets.loop, IAssetTools.outcomes]
  | cons asset_data rest ih =>
    intro st
    obtain ⟨h1, h2, h3, h4⟩ := ih (RenameAssets.body M E module show_if_no_failures st asset_data)
    simp only [RenameAssets.loop]
    rw [h1, h2, h3, h4]
    by_cases hinv : (M.IsAssetNamedCorrectly E asset_data "").1
        = ENamingConventionValidationResult.Invalid
    · obtain ⟨b1, b2, b3, b4, -, -⟩ := RenameAssets.body_Invalid M E module
        show_if_no_failures st asset_data hinv
      rw [b1, b2, b3, b4]
      simp only [List.filter_cons, hinv, decide_True, if_true, List.map_cons,
        IAssetTools.outcomes, List.append_assoc, List.singleton_append, List.count_cons]
      cases (module.RenameAssets st.asset_tools (M.AssetsToRename E asset_data)).1 <;>
        simp <;> omega
    · obtain ⟨b1, b2, b3, b4, -, -⟩ := RenameAssets.body_not_Invalid M E module
        show_if_no_failures st asset_data hinv
      rw [b1, b2, b3, b4]
      simp [List.filter_cons, hinv]

/-- The outcomes of the calls of the rename executor are as many as the calls. -/
theorem IAssetTools.outcomes_length {σ : Type} (module : IAssetTools σ)
    (calls : List (List FAssetRenameData)) :
    ∀ asset_tools : σ, (module.outcomes asset_tools calls).1.length = calls.length := by
  induction calls with
  | nil => intro asset_tools; rfl
  | cons call calls ih =>
    intro asset_tools
    simp [IAssetTools.outcomes, ih]

/-- In a list of outcomes, the successes and the failures are together the outcomes. -/
theorem count_true_add_count_false (outcomes : List Bool) :
    outcomes.count true + outcomes.count false = outcomes.length := by
  induction outcomes with
  | nil => rfl
  | cons b bs ih =>
    cases b <;> simp [List.count_cons] <;> omega

/-- The loop of `RenameAssets` checks or skips every asset of the list, skipping the
`Excluded` ones, and the `Invalid` assets are among the checked files. -/
theorem RenameAssets.renameLoop_counters {σ : Type} (M : UNamingConventionValidationManager)
    (E : Engine) (module : IAssetTools σ) (show_if_no_failures : Bool)
    (asset_data_list : List FAssetData) :
    ∀ st : RenameAssets.Locals σ,
      (RenameAssets.loop M E module show_if_no_failures st asset_data_list).num_files_checked
          + (RenameAssets.loop M E module show_if_no_failures st
              asset_data_list).num_files_skipped
          = st.num_files_checked + st.num_files_skipped + asset_data_list.length ∧
        (RenameAssets.loop M E module show_if_no_failures st asset_data_list).num_files_skipped
          = st.num_files_skipped + asset_data_list.countP (fun a =>
              decide ((M.IsAssetNamedCorrectly E a "").1
                = ENamingConventionValidationResult.Excluded)) ∧
        st.num_files_checked + asset_data_list.countP (fun a =>
              decide ((M.IsAssetNamedCorrectly E a "").1
                = ENamingConventionValidationResult.Invalid))
          ≤ (RenameAssets.loop M E module show_if_no_failures st
              asset_data_list).num_files_checked := by
  induction asset_data_list with
  | nil =>
    intro st
    simp [RenameAssets.loop]
  | cons asset_data rest ih =>
    intro st
    obtain ⟨h1, h2, h3⟩ := ih (RenameAssets.body M E module show_if_no_failures st asset_data)
    simp only [RenameAssets.loop, List.length_cons, List.countP_cons, decide_eq_true_eq]
    by_cases hinv : (M.IsAssetNamedCorrectly E asset_data "").1
        = ENamingConventionValidationResult.Invalid
    · obtain ⟨-, -, -, -, b5, b6⟩ := RenameAssets.body_Invalid M E module
        show_if_no_failures st asset_data hinv
      rw [b5] at h1 h3
      rw [b6] at h1 h2
      simp only [hinv, if_true]
      have hne : ¬ (ENamingConventionValidationResult.Invalid
          = ENamingConventionValidationResult.Excluded) := by decide
      simp only [hne, if_false]
      refine ⟨by omega, by omega, by omega⟩
    · obtain ⟨-, -, -, -, b5, b6⟩ := RenameAssets.body_not_Invalid M E module
        show_if_no_failures st asset_data hinv
      rw [b5] at h1 h3
      rw [b6] at h1 h2
      simp only [hinv, if_false]
      by_cases hex : (M.IsAssetNamedCorrectly E asset_data "").1
          = ENamingConventionValidationResult.Excluded
      · simp only [hex, if_true] at h1 h2 h3 ⊢
        refine ⟨by omega, by omega, by omega⟩
      · simp only [hex, if_false] at h1 h2 h3 ⊢
        refine ⟨by omega, by omega, by omega⟩

/-- The summary lines that end `RenameAssets` leave the counters, the state of the asset
tools and the calls of the loop as they are. -/
theorem RenameAssetsLocals_counters {σ : Type} (M : UNamingConventionValidationManager)
    (E : Engine) (module : IAssetTools σ) (asset_tools : σ)
    (asset_data_list : List FAssetData) (skip_excluded_directories show_if_no_failures : Bool) :
    (M.RenameAssetsLocals E module asset_tools asset_data_list skip_excluded_directories
          show_if_no_failures).num_files_checked
        = (RenameAssets.loop M E module show_if_no_failures (RenameAssets.init asset_tools)
          asset_data_list).num_files_checked ∧
      (M.RenameAssetsLocals E module asset_tools asset_data_list skip_excluded_directories
          show_if_no_failures).num_files_skipped
        = (RenameAssets.loop M E module show_if_no_failures (RenameAssets.init asset_tools)
          asset_data_list).num_files_skipped ∧
      (M.RenameAssetsLocals E module asset_tools asset_data_list skip_excluded_directories
          show_if_no_failures).num_files_renamed
        = (RenameAssets.loop M E module show_if_no_failures (RenameAssets.init asset_tools)
          asset_data_list).num_files_renamed ∧
      (M.RenameAssetsLocals E module asset_tools asset_data_list skip_excluded_directories
          show_if_no_failures).num_files_failed
        = (RenameAssets.loop M E module show_if_no_failures (RenameAssets.init asset_tools)
          asset_data_list).num_files_failed ∧
      (M.RenameAssetsLocals E module asset_tools asset_data_list skip_excluded_directories
          show_if_no_failures).rename_calls
        = (RenameAssets.loop M E module show_if_no_failures (RenameAssets.init asset_tools)
          asset_data_list).rename_calls ∧
      (M.RenameAssetsLocals E module asset_tools asset_data_list skip_excluded_directories
          show_if_no_failures).asset_tools
        = (RenameAssets.loop M E module show_if_no_failures (RenameAssets.init asset_tools)
          asset_data_list).asset_tools := by
  unfold UNamingConventionValidationManager.RenameAssetsLocals
  simp only
  split <;> exact ⟨rfl, rfl, rfl, rfl, rfl, rfl⟩

/-- C12: `RenameAssets` calls the rename executor, with one rename, for each `Invalid`
asset of the list, in the order of the list, and for no asset of another verdict; the
renamed and the failed files are together the `Invalid` assets. -/
theorem RenameAssets_calls {σ : Type} (M : UNamingConventionValidationManager)
    (E : Engine) (module : IAssetTools σ) (asset_tools : σ)
    (asset_data_list : List FAssetData) (skip_excluded_directories show_if_no_failures : Bool) :
    (M.RenameAssetsLocals E module asset_tools asset_data_list skip_excluded_directories
          show_if_no_failures).rename_calls
        = (asset_data_list.filter (fun a =>
            decide ((M.IsAssetNamedCorrectly E a "").1
              = ENamingConventionValidationResult.Invalid))).map
            (fun a => [⟨a.ToSoftObjectPath, M.GetRenamedAssetSoftObjectPath E a⟩]) ∧
      (M.RenameAssetsLocals E module asset_tools asset_data_list skip_excluded_directories
          show_if_no_failures).num_files_renamed
        + (M.RenameAssetsLocals E module asset_tools asset_data_list skip_excluded_directories
          show_if_no_failures).num_files_failed
        = asset_data_list.countP (fun a =>
            decide ((M.IsAssetNamedCorrectly E a "").1
              = ENamingConventionValidationResult.Invalid)) := by
  obtain ⟨-, -, h3, h4, h5, -⟩ := RenameAssetsLocals_counters M E module asset_tools
    asset_data_list skip_excluded_directories show_if_no_failures
  obtain ⟨c1, -, c3, c4⟩ := RenameAssets.loop_calls M E module show_if_no_failures
    asset_data_list (RenameAssets.init asset_tools)
  have hlen := IAssetTools.outcomes_length module
    ((asset_data_list.filter (fun a =>
      decide ((M.IsAssetNamedCorrectly E a "").1
        = ENamingConventionValidationResult.Invalid))).map (M.AssetsToRename E))
    (RenameAssets.init asset_tools).asset_tools
  have hcount := count_true_add_count_false (module.outcomes
    (RenameAssets.init asset_tools).asset_tools
    ((asset_data_list.filter (fun a =>
      decide ((M.IsAssetNamedCorrectly E a "").1
        = ENamingConventionValidationResult.Invalid))).map (M.AssetsToRename E))).1
  rw [h3, h4, h5, c1, c3, c4]
  refine ⟨by simp only [RenameAssets.init, List.nil_append]; rfl, ?_⟩
  rw [List.length_map, ← List.countP_eq_length_filter] at hlen
  have h0 : (RenameAssets.init asset_tools).num_files_renamed = 0 ∧
      (RenameAssets.init asset_tools).num_files_failed = 0 := ⟨rfl, rfl⟩
  rw [h0.1, h0.2]
  omega

/-- C18: for every list of assets and every rename executor, `RenameAssets` checks or
skips every asset of the list; its renamed files are the calls of the executor, one for
each `Invalid` asset, that succeeded, its failed files the calls that did not; it returns
the number of calls that failed, and the renamed and failed files are among the checked
ones. -/
theorem RenameAssets_failures {σ : Type} (M : UNamingConventionValidationManager)
    (E : Engine) (module : IAssetTools σ) (asset_tools : σ)
    (asset_data_list : List FAssetData) (skip_excluded_directories show_if_no_failures : Bool) :
    (M.RenameAssetsLocals E module asset_tools asset_data_list skip_excluded_directories
          show_if_no_failures).num_files_checked
        + (M.RenameAssetsLocals E module asset_tools asset_data_list skip_excluded_directories
          show_if_no_failures).num_files_skipped
        = asset_data_list.length ∧
      (M.RenameAssetsLocals E module asset_tools asset_data_list skip_excluded_directories
          show_if_no_failures).num_files_renamed
        = (module.outcomes asset_tools ((asset_data_list.filter (fun a =>
            decide ((M.IsAssetNamedCorrectly E a "").1
              = ENamingConventionValidationResult.Invalid))).map
            (M.AssetsToRename E))).1.count true ∧
      (M.RenameAssetsLocals E module asset_tools asset_data_list skip_excluded_directories
          show_if_no_failures).num_files_failed
        = (module.outcomes asset_tools ((asset_data_list.filter (fun a =>
            decide ((M.IsAssetNamedCorrectly E a "").1
              = ENamingConventionValidationResult.Invalid))).map
            (M.AssetsToRename E))).1.count false ∧
      M.RenameAssets E module asset_tools asset_data_list skip_excluded_directories
          show_if_no_failures
        = (module.outcomes asset_tools ((asset_data_list.filter (fun a =>
            decide ((M.IsAssetNamedCorrectly E a "").1
              = ENamingConventionValidationResult.Invalid))).map
            (M.AssetsToRename E))).1.count false ∧
      (M.RenameAssetsLocals E module asset_tools asset_data_list skip_excluded_directories
          show_if_no_failures).num_files_renamed
        + (M.RenameAssetsLocals E module asset_tools asset_data_list skip_excluded_directories
          show_if_no_failures).num_files_failed
        ≤ (M.RenameAssetsLocals E module asset_tools asset_data_list skip_excluded_directories
          show_if_no_failures).num_files_checked := by
  obtain ⟨h1, h2, h3, h4, -, -⟩ := RenameAssetsLocals_counters M E module asset_tools
    asset_data_list skip_excluded_directories show_if_no_failures
  obtain ⟨-, -, c3, c4⟩ := RenameAssets.loop_calls M E module show_if_no_failures
    asset_data_list (RenameAssets.init asset_tools)
  obtain ⟨k1, -, k3⟩ := RenameAssets.renameLoop_counters M E module show_if_no_failures
    asset_data_list (RenameAssets.init asset_tools)
  have hlen := IAssetTools.outcomes_length module
    ((asset_data_list.filter (fun a =>
      decide ((M.IsAssetNamedCorrectly E a "").1
        = ENamingConventionValidationResult.Invalid))).map (M.AssetsToRename E)) asset_tools
  have hcount := count_true_add_count_false (module.outcomes asset_tools
    ((asset_data_list.filter (fun a =>
      decide ((M.IsAssetNamedCorrectly E a "").1
        = ENamingConventionValidationResult.Invalid))).map (M.AssetsToRename E))).1
  rw [List.length_map, ← List.countP_eq_length_filter] at hlen
  have h0 : (RenameAssets.init asset_tools).num_files_renamed = 0 ∧
      (RenameAssets.init asset_tools).num_files_failed = 0 ∧
      (RenameAssets.init asset_tools).num_files_checked = 0 ∧
      (RenameAssets.init asset_tools).num_files_skipped = 0 ∧
      (RenameAssets.init asset_tools).asset_tools = asset_tools := ⟨rfl, rfl, rfl, rfl, rfl⟩
  obtain ⟨z1, z2, z3, z4, z5⟩ := h0
  rw [z1, z5] at c3
  rw [z2, z5] at c4
  rw [z3, z4] at k1
  rw [z3] at k3
  unfold UNamingConventionValidationManager.RenameAssets
  rw [h1, h2, h3, h4, c3, c4]
  refine ⟨by omega, by omega, by omega, by omega, by omega⟩

/-! ## The table that `Initialize` builds -/

/-- The first loop of `Initialize` gives every description the class its class path loads
to, and changes nothing else. -/
theorem Initialize.descriptionsLoop_eq_map (E : Engine)
    (ds : List FNamingConventionValidationClassDescription) :
    Initialize.descriptionsLoop E ds =
      ds.map (fun d => { d with Class := E.TryLoadClass d.ClassPath }) := by
  induction ds with
  | nil => rfl
  | cons d ds ih => simp [Initialize.descriptionsLoop, ih]

/-- The second loop of `Initialize` adds, in their order, the classes that the class paths
load to. -/
theorem Initialize.excludedLoop_eq_filterMap (E : Engine) (class_paths : List String) :
    ∀ ExcludedClasses : List UClass,
      Initialize.excludedLoop E ExcludedClasses class_paths =
        ExcludedClasses ++ class_paths.filterMap E.TryLoadClass := by
  induction class_paths with
  | nil => intro xs; simp [Initialize.excludedLoop]
  | cons p ps ih =>
    intro xs
    cases h : E.TryLoadClass p <;> simp [Initialize.excludedLoop, h, ih]

/-- C13, as stated, fails with an `operator<` that puts the longer class path first: the
configuration lists the rule of textures before the rule of two-dimensional textures, and
after `Initialize` the table lists it after; a two-dimensional texture named `T_Wood`,
`Valid` by the configured order, is `Invalid` by the table. -/
theorem Initialize_reorders_ClassDescriptions :
    ConfiguredManager.ClassDescriptions.map (fun d => d.ClassPath) =
        ["/Script/Engine.Texture", "/Script/Engine.Texture2D", "/Script/Game.RemovedActor"] ∧
      (ConfiguredManager.Initialize ProjectEngine LongerClassPathFirst).ClassDescriptions.map
          (fun d => d.ClassPath) =
        ["/Script/Game.RemovedActor", "/Script/Engine.Texture2D", "/Script/Engine.Texture"] ∧
      (UNamingConventionValidationManager.IsAssetNamedCorrectly
          { ConfiguredManager with
            ClassDescriptions :=
              Initialize.descriptionsLoop ProjectEngine ConfiguredManager.ClassDescriptions }
          ProjectEngine WoodAsset "").1 = ENamingConventionValidationResult.Valid ∧
      ((ConfiguredManager.Initialize ProjectEngine LongerClassPathFirst).IsAssetNamedCorrectly
          ProjectEngine WoodAsset "").1 = ENamingConventionValidationResult.Invalid := by
  decide

/-- C13, amended: after `Initialize`, `ClassDescriptions` holds the configured entries,
each with the class its class path loads to, none added and none dropped, in the order
that `ClassDescriptions.Sort()` gives them: when `operator<` is an order, no entry of the
table is less than an entry listed before it. -/
theorem Initialize_sorts_ClassDescriptions
    (M : UNamingConventionValidationManager) (E : Engine)
    (Less : FNamingConventionValidationClassDescription →
      FNamingConventionValidationClassDescription → Bool)
    (hasymm : ∀ a b, Less a b = true → Less b a = false)
    (htrans : ∀ a b c, Less b a = false → Less c b = false → Less c a = false) :
    (M.Initialize E Less).ClassDescriptions.Perm
        (M.ClassDescriptions.map (fun d => { d with Class := E.TryLoadClass d.ClassPath })) ∧
      (M.Initialize E Less).ClassDescriptions.Pairwise (fun a b => Less b a = false) := by
  constructor
  · simp only [UNamingConventionValidationManager.Initialize, TArray.Sort,
      Initialize.descriptionsLoop_eq_map]
    exact List.perm_insertionSort _ _
  · haveI : IsTotal FNamingConventionValidationClassDescription
        (fun a b => Less b a = false) :=
      ⟨fun a b => by
        cases hab : Less a b
        · exact Or.inr rfl
        · exact Or.inl (hasymm a b hab)⟩
    haveI : IsTrans FNamingConventionValidationClassDescription
        (fun a b => Less b a = false) :=
      ⟨fun a b c hab hbc => htrans a b c hab hbc⟩
    simp only [UNamingConventionValidationManager.Initialize, TArray.Sort]
    exact List.sorted_insertionSort _ _

/-- The amended statement C13 on the configured manager, with the `operator<` that puts
the longer class path first. -/
theorem Initialize_sorts_ClassDescriptions_witness :
    (ConfiguredManager.Initialize ProjectEngine LongerClassPathFirst).ClassDescriptions.Perm
        (ConfiguredManager.ClassDescriptions.map
          (fun d => { d with Class := ProjectEngine.TryLoadClass d.ClassPath })) ∧
      (ConfiguredManager.Initialize ProjectEngine LongerClassPathFirst).ClassDescriptions.Pairwise
        (fun a b => LongerClassPathFirst b a = false) :=
  Initialize_sorts_ClassDescriptions ConfiguredManager ProjectEngine LongerClassPathFirst
    (fun a b h => by
      simp only [LongerClassPathFirst, decide_eq_true_eq, decide_eq_false_iff_not] at h ⊢
      omega)
    (fun a b c h1 h2 => by
      simp only [LongerClassPathFirst, decide_eq_false_iff_not] at h1 h2 ⊢
      omega)

/-- The loop over the class descriptions is the same on a table and on the table without
its descriptions of null class, which it passes over. -/
theorem DoesAssetMatchNameConvention.descriptionsLoop_filter_Class
    (c : UClass) (asset_name error_message : String)
    (ds : List FNamingConventionValidationClassDescription) :
    DoesAssetMatchNameConvention.descriptionsLoop c asset_name error_message
        (ds.filter (fun d => d.Class.isSome)) =
      DoesAssetMatchNameConvention.descriptionsLoop c asset_name error_message ds := by
  induction ds with
  | nil => rfl
  | cons d ds ih =>
    cases hd : d.Class with
    | none =>
      simp [List.filter_cons, hd, DoesAssetMatchNameConvention.descriptionsLoop,
        UClass.IsChildOf, ih]
    | some b =>
      simp [List.filter_cons, hd, DoesAssetMatchNameConvention.descriptionsLoop, ih]

/-- C17, as stated, fails on the configured manager, one of whose class paths does not
load: after `Initialize` the table still holds the description of that class path,
with a null class. -/
theorem Initialize_keeps_null_Class :
    ProjectEngine.TryLoadClass RemovedActorDescription.ClassPath = none ∧
      RemovedActorDescription ∈ ConfiguredManager.ClassDescriptions ∧
      RemovedActorDescription ∈
        (ConfiguredManager.Initialize ProjectEngine LongerClassPathFirst).ClassDescriptions ∧
      RemovedActorDescription.Class = none := by
  decide

/-- C17, amended: `Initialize` drops no configured entry.  Every entry is in the table
with the class its class path loads to, the entries that do not resolve with a null
class; these match no asset, the verdict of every asset being the one of the table
without them.  `ExcludedClasses` gets the classes of the excluded class paths that load,
in their order, and nothing for the paths that do not load. -/
theorem Initialize_keeps_ClassDescriptions
    (M : UNamingConventionValidationManager) (E : Engine)
    (Less : FNamingConventionValidationClassDescription →
      FNamingConventionValidationClassDescription → Bool) :
    (∀ d ∈ M.ClassDescriptions,
        { d with Class := E.TryLoadClass d.ClassPath } ∈ (M.Initialize E Less).ClassDescriptions) ∧
      (M.Initialize E Less).ClassDescriptions.length = M.ClassDescriptions.length ∧
      (∀ (asset_data : FAssetData) (error_message : String),
        UNamingConventionValidationManager.IsAssetNamedCorrectly
            { M.Initialize E Less with
              ClassDescriptions :=
                (M.Initialize E Less).ClassDescriptions.filter (fun d => d.Class.isSome) }
            E asset_data error_message
          = (M.Initialize E Less).IsAssetNamedCorrectly E asset_data error_message) ∧
      (M.Initialize E Less).ExcludedClasses =
        M.ExcludedClasses ++ M.ExcludedClassPaths.filterMap E.TryLoadClass := by
  have hperm : (M.Initialize E Less).ClassDescriptions.Perm
      (M.ClassDescriptions.map (fun d => { d with Class := E.TryLoadClass d.ClassPath })) := by
    simp only [UNamingConventionValidationManager.Initialize, TArray.Sort,
      Initialize.descriptionsLoop_eq_map]
    exact List.perm_insertionSort _ _
  refine ⟨?_, ?_, ?_, ?_⟩
  · intro d hd
    exact hperm.symm.subset (List.mem_map.2 ⟨d, hd, rfl⟩)
  · rw [hperm.length_eq, List.length_map]
  · intro asset_data error_message
    simp only [UNamingConventionValidationManager.IsAssetNamedCorrectly,
      UNamingConventionValidationManager.IsPathExcludedFromValidation,
      UNamingConventionValidationManager.DoesAssetMatchNameConvention,
      DoesAssetMatchNameConvention.descriptionsLoop_filter_Class]
    rfl
  · simp [UNamingConventionValidationManager.Initialize,
      Initialize.excludedLoop_eq_filterMap]

/-! ## Excluded directories -/

/-- The search finds a pattern exactly when the pattern is not empty and occurs in the
text, at any position. -/
theorem FString.FindFrom_iff (pat text : List Char) :
    FString.FindFrom pat text = true ↔ pat ≠ [] ∧ pat <:+: text := by
  induction text with
  | nil =>
    simp only [FString.FindFrom, Bool.false_eq_true, false_iff, not_and, List.infix_nil]
    exact fun h => h
  | cons c cs ih =>
    simp only [FString.FindFrom, Bool.or_eq_true, Bool.and_eq_true, Bool.not_eq_true',
      List.isEmpty_eq_false, List.isPrefixOf_iff_prefix, ih, List.infix_cons_iff]
    tauto

/-- `Contains` is true exactly when the searched string is not empty and occurs in the
string at any position, the case of the letters put aside. -/
theorem FString.Contains_iff (s SubStr : String) :
    FString.Contains s SubStr = true ↔
      FString.IsEmpty SubStr = false ∧ FString.ToLower SubStr <:+: FString.ToLower s := by
  unfold FString.Contains
  rw [FString.FindFrom_iff]
  simp [FString.IsEmpty, FString.ToLower]

/-- `Contains` is true exactly when the string looked for is not empty and its
characters, put in small letters, occur at some position of the string put in small
letters. -/
theorem FString.Contains_iff_infix (s SubStr : String) :
    FString.Contains s SubStr = true ↔
      SubStr ≠ "" ∧ SubStr.data.map Char.toLower <:+: s.data.map Char.toLower := by
  rw [FString.Contains_iff, ← Bool.not_eq_true, FString.IsEmpty_iff]
  rfl

/-- C14, as stated, fails on two paths: with one excluded directory, of empty path, which
occurs in every path, the path `/Game/Meshes/Cube` is not excluded; with the excluded
directory `/Engine/`, which does not occur in it, the path `/Game/ENGINE/Rock` is
excluded. -/
theorem IsPathExcludedFromValidation_blank_and_capital_letters :
    (BlankDirectoryManager.ExcludedDirectories = [""] ∧
      "".data <:+: CubeAsset.PackageName.data ∧
      BlankDirectoryManager.IsPathExcludedFromValidation CubeAsset.PackageName = false) ∧
    (ProjectManager.ExcludedDirectories = ["/Engine/"] ∧
      ¬ ("/Engine/".data <:+: CapitalLettersEngineRockAsset.PackageName.data) ∧
      ProjectManager.IsPathExcludedFromValidation CapitalLettersEngineRockAsset.PackageName
        = true) := by
  decide

/-- C14, amended: `IsPathExcludedFromValidation` is true exactly when one of the excluded
directories is not empty and occurs in the path at some position, the letters being
compared without regard to their case; the directory is looked for at every position of
the path, not only at its start; an excluded directory of empty path excludes nothing,
and with no excluded directory no path is excluded. -/
theorem IsPathExcludedFromValidation_iff (M : UNamingConventionValidationManager)
    (path : String) :
    (M.IsPathExcludedFromValidation path = true ↔
        ∃ d ∈ M.ExcludedDirectories,
          d ≠ "" ∧ d.data.map Char.toLower <:+: path.data.map Char.toLower) ∧
      (∀ d ∈ M.ExcludedDirectories, d ≠ "" →
        ∀ before after : String,
          M.IsPathExcludedFromValidation (before ++ d ++ after) = true) ∧
      ((∀ d ∈ M.ExcludedDirectories, d = "") → M.IsPathExcludedFromValidation path = false) ∧
      (M.ExcludedDirectories = [] → M.IsPathExcludedFromValidation path = false) := by
  have hfind : ∀ pat text : List Char,
      FString.FindFrom pat text = true ↔ pat ≠ [] ∧ pat <:+: text := by
    intro pat text
    induction text with
    | nil =>
      simp only [FString.FindFrom, Bool.false_eq_true, false_iff, not_and, List.infix_nil]
      exact fun h => h
    | cons c cs ih =>
      simp only [FString.FindFrom, Bool.or_eq_true, Bool.and_eq_true, Bool.not_eq_true',
        List.isEmpty_eq_false, List.isPrefixOf_iff_prefix, ih, List.infix_cons_iff]
      tauto
  have hcontains : ∀ p d : String, FString.Contains p d = true ↔
      d ≠ "" ∧ d.data.map Char.toLower <:+: p.data.map Char.toLower := by
    intro p d
    unfold FString.Contains FString.ToLower
    rw [hfind, ne_eq, List.map_eq_nil_iff]
    exact ⟨fun h => ⟨fun hs => h.1 (by rw [hs]), h.2⟩,
      fun h => ⟨fun hd => h.1 (String.ext hd), h.2⟩⟩
  have hiff : ∀ p : String, M.IsPathExcludedFromValidation p = true ↔
      ∃ d ∈ M.ExcludedDirectories,
        d ≠ "" ∧ d.data.map Char.toLower <:+: p.data.map Char.toLower := by
    intro p
    unfold UNamingConventionValidationManager.IsPathExcludedFromValidation
    induction M.ExcludedDirectories with
    | nil => simp [IsPathExcludedFromValidation.loop]
    | cons d ds ih =>
      by_cases hc : FString.Contains p d = true
      · have hd := (hcontains p d).1 hc
        simp only [IsPathExcludedFromValidation.loop, hc, if_true, true_iff]
        exact ⟨d, List.mem_cons_self _ _, hd⟩
      · have hd : ¬ (d ≠ "" ∧ d.data.map Char.toLower <:+: p.data.map Char.toLower) :=
          fun h => hc ((hcontains p d).2 h)
        simp only [IsPathExcludedFromValidation.loop, hc, Bool.false_eq_true, if_false, ih,
          List.mem_cons, exists_eq_or_imp]
        constructor
        · exact fun h => Or.inr h
        · rintro (h | h)
          · exact absurd h hd
          · exact h
  refine ⟨hiff path, ?_, ?_, ?_⟩
  · intro d hd hne before after
    refine (hiff _).2 ⟨d, hd, hne, ?_⟩
    refine ⟨before.data.map Char.toLower, after.data.map Char.toLower, ?_⟩
    simp [String.data_append]
  · intro hblank
    rw [← Bool.not_eq_true, hiff]
    rintro ⟨d, hd, hne, -⟩
    exact hne (hblank d hd)
  · intro hnil
    rw [← Bool.not_eq_true, hiff, hnil]
    simp

/-- An asset in a directory named `Engine` of the game content is excluded by the
excluded directory `/Engine/`, which its package name does not start with. -/
theorem IsPathExcludedFromValidation_not_anchored :
    ProjectManager.IsPathExcludedFromValidation GameEngineRockAsset.PackageName = true ∧
      ¬ ("/Engine/".data <+: GameEngineRockAsset.PackageName.data) ∧
      "/Engine/".data <:+: GameEngineRockAsset.PackageName.data ∧
      (ProjectManager.IsAssetNamedCorrectly ProjectEngine GameEngineRockAsset "").1 =
        ENamingConventionValidationResult.Excluded := by
  decide

/-! ## The path of the renamed asset -/

/-- `dropWhile` drops a first part of which every element passes the test, and stops at an
element that does not pass it. -/
theorem dropWhile_append_cons {α : Type} (p : α → Bool) (xs : List α) (y : α) (ys : List α)
    (hxs : ∀ x ∈ xs, p x = true) (hy : p y = false) :
    (xs ++ y :: ys).dropWhile p = y :: ys := by
  induction xs with
  | nil => simp [List.dropWhile, hy]
  | cons x xs ih =>
    have hx : p x = true := hxs x (List.mem_cons_self _ _)
    simp only [List.cons_append, List.dropWhile, hx]
    exact ih (fun z hz => hxs z (List.mem_cons_of_mem _ hz))

/-- `FPaths::GetPath` gives the directory of a path made of a directory, a slash and a
name without slash nor backslash. -/
theorem FPaths.GetPath_directory (D Name : String)
    (hname : ∀ c ∈ Name.data, c ≠ '/' ∧ c ≠ '\\') :
    FPaths.GetPath (D ++ "/" ++ Name) = D := by
  have hdata : (D ++ "/" ++ Name).data = D.data ++ '/' :: Name.data := by
    simp [String.data_append]
  have hrev : (D.data ++ '/' :: Name.data).reverse = Name.data.reverse ++ '/' :: D.data.reverse := by
    simp
  unfold FPaths.GetPath
  rw [hdata, hrev, dropWhile_append_cons]
  · simp
  · intro c hc
    have := hname c (List.mem_reverse.1 hc)
    simp [this.1, this.2]
  · decide

/-- C15: for an asset whose package is in the directory `D`, the path that
`GetRenamedAssetSoftObjectPath` proposes is `D`, a slash, the renamed name, a dot and the
renamed name; the package of the renamed asset is in the directory `D` as well, when the
renamed name has no slash. -/
theorem GetRenamedAssetSoftObjectPath_directory
    (M : UNamingConventionValidationManager) (E : Engine) (asset_data : FAssetData)
    (D PackageShortName : String)
    (hpackage : asset_data.PackageName = D ++ "/" ++ PackageShortName)
    (hshort : ∀ c ∈ PackageShortName.data, c ≠ '/' ∧ c ≠ '\\') :
    M.GetRenamedAssetSoftObjectPath E asset_data =
        D ++ "/" ++ M.RenamedName E asset_data ++ "." ++ M.RenamedName E asset_data ∧
      (M.RenamedAssetData E asset_data).PackageName = D ++ "/" ++ M.RenamedName E asset_data ∧
      (M.RenamedAssetData E asset_data).ToSoftObjectPath =
        M.GetRenamedAssetSoftObjectPath E asset_data ∧
      ((∀ c ∈ (M.RenamedName E asset_data).data, c ≠ '/' ∧ c ≠ '\\') →
        FPaths.GetPath (M.RenamedAssetData E asset_data).PackageName =
          FPaths.GetPath asset_data.PackageName) := by
  have hD : FPaths.GetPath asset_data.PackageName = D := by
    rw [hpackage]
    exact FPaths.GetPath_directory D PackageShortName hshort
  refine ⟨?_, ?_, ?_, ?_⟩
  · simp only [UNamingConventionValidationManager.GetRenamedAssetSoftObjectPath, hD]
  · simp only [UNamingConventionValidationManager.RenamedAssetData, hD]
  · simp only [FAssetData.ToSoftObjectPath,
      UNamingConventionValidationManager.RenamedAssetData,
      UNamingConventionValidationManager.GetRenamedAssetSoftObjectPath]
  · intro hname
    simp only [UNamingConventionValidationManager.RenamedAssetData, hD]
    exact FPaths.GetPath_directory D _ hname

/-- The statement C15 on the static mesh named `Cube` of the directory `/Game/Meshes`: the
proposed path is `/Game/Meshes/SM_Cube.SM_Cube`. -/
theorem GetRenamedAssetSoftObjectPath_directory_witness :
    ProjectManager.GetRenamedAssetSoftObjectPath ProjectEngine CubeAsset =
      "/Game/Meshes/SM_Cube.SM_Cube" :=
  (GetRenamedAssetSoftObjectPath_directory ProjectManager ProjectEngine CubeAsset
    "/Game/Meshes" "Cube" (by decide) (by decide)).1.trans (by decide)

/-! ## Independence of the assets -/

/-- The loop of `ValidateAssets` on a list followed by another list is the loop on the
second list, from the locals the loop on the first list ends with. -/
theorem ValidateAssets.loop_append (M : UNamingConventionValidationManager) (E : Engine)
    (show_if_no_failures : Bool) (first second : List FAssetData) :
    ∀ st : ValidateAssets.Locals,
      ValidateAssets.loop M E show_if_no_failures st (first ++ second) =
        ValidateAssets.loop M E show_if_no_failures
          (ValidateAssets.loop M E show_if_no_failures st first) second := by
  induction first with
  | nil => intro st; rfl
  | cons a rest ih => intro st; simp [ValidateAssets.loop, ih]

/-- The counters of `ValidateAssets` when it returns: each is the number of assets of the
list with its verdict, and the checked files are the assets that are not `Excluded`. -/
theorem ValidateAssetsLocals_countP (M : UNamingConventionValidationManager) (E : Engine)
    (asset_data_list : List FAssetData) (skip_excluded_directories show_if_no_failures : Bool) :
    (M.ValidateAssetsLocals E asset_data_list skip_excluded_directories
          show_if_no_failures).num_files_skipped
        = asset_data_list.countP (fun a =>
          decide ((M.IsAssetNamedCorrectly E a "").1
            = ENamingConventionValidationResult.Excluded)) ∧
      (M.ValidateAssetsLocals E asset_data_list skip_excluded_directories
          show_if_no_failures).num_valid_files
        = asset_data_list.countP (fun a =>
          decide ((M.IsAssetNamedCorrectly E a "").1
            = ENamingConventionValidationResult.Valid)) ∧
      (M.ValidateAssetsLocals E asset_data_list skip_excluded_directories
          show_if_no_failures).num_invalid_files
        = asset_data_list.countP (fun a =>
          decide ((M.IsAssetNamedCorrectly E a "").1
            = ENamingConventionValidationResult.Invalid)) ∧
      (M.ValidateAssetsLocals E asset_data_list skip_excluded_directories
          show_if_no_failures).num_files_unable_to_validate
        = asset_data_list.countP (fun a =>
          decide ((M.IsAssetNamedCorrectly E a "").1
            = ENamingConventionValidationResult.Unknown)) ∧
      (M.ValidateAssetsLocals E asset_data_list skip_excluded_directories
          show_if_no_failures).num_files_checked
        = asset_data_list.countP (fun a =>
            decide ((M.IsAssetNamedCorrectly E a "").1
              = ENamingConventionValidationResult.Valid))
          + asset_data_list.countP (fun a =>
            decide ((M.IsAssetNamedCorrectly E a "").1
              = ENamingConventionValidationResult.Invalid))
          + asset_data_list.countP (fun a =>
            decide ((M.IsAssetNamedCorrectly E a "").1
              = ENamingConventionValidationResult.Unknown)) := by
  obtain ⟨h1, h2, h3, h4, h5⟩ := ValidateAssetsLocals_counters M E asset_data_list
    skip_excluded_directories show_if_no_failures
  obtain ⟨t1, t2, t3, t4⟩ := ValidateAssets.loop_tally M E show_if_no_failures asset_data_list
    ValidateAssets.init
  have hsum := (ValidateAssets.loop_counters M E show_if_no_failures asset_data_list
    ValidateAssets.init).2 rfl
  have hinit : ValidateAssets.init.num_files_skipped = 0 ∧
      ValidateAssets.init.num_valid_files = 0 ∧ ValidateAssets.init.num_invalid_files = 0 ∧
      ValidateAssets.init.num_files_unable_to_validate = 0 := ⟨rfl, rfl, rfl, rfl⟩
  obtain ⟨i1, i2, i3, i4⟩ := hinit
  rw [i1, Nat.zero_add] at t1
  rw [i2, Nat.zero_add] at t2
  rw [i3, Nat.zero_add] at t3
  rw [i4, Nat.zero_add] at t4
  rw [h1, h2, h3, h4, h5, hsum, t1, t2, t3, t4]
  exact ⟨rfl, rfl, rfl, rfl, rfl⟩

/-- C16: for a fixed manager, the verdict by which `ValidateAssets` counts an asset is
`IsAssetNamedCorrectly` of that asset alone, whatever assets come before it in the list:
after the asset, the counter of that verdict is one more than before it, and the other
counters are what they were.  The counters and the value returned are the same on two
lists that hold the same assets in different orders. -/
theorem ValidateAssets_permutation (M : UNamingConventionValidationManager) (E : Engine)
    (asset_data_list permuted_list : List FAssetData)
    (skip_excluded_directories show_if_no_failures : Bool)
    (hperm : asset_data_list.Perm permuted_list) :
    (∀ (before : List FAssetData) (asset_data : FAssetData),
        ValidateAssets.loop M E show_if_no_failures ValidateAssets.init (before ++ [asset_data])
            = ValidateAssets.body M E show_if_no_failures
                (ValidateAssets.loop M E show_if_no_failures ValidateAssets.init before)
                asset_data ∧
          (ValidateAssets.loop M E show_if_no_failures ValidateAssets.init
              (before ++ [asset_data])).num_files_skipped
            = (ValidateAssets.loop M E show_if_no_failures ValidateAssets.init
                before).num_files_skipped +
              (if (M.IsAssetNamedCorrectly E asset_data "").1
                = ENamingConventionValidationResult.Excluded then 1 else 0) ∧
          (ValidateAssets.loop M E show_if_no_failures ValidateAssets.init
              (before ++ [asset_data])).num_valid_files
            = (ValidateAssets.loop M E show_if_no_failures ValidateAssets.init
                before).num_valid_files +
              (if (M.IsAssetNamedCorrectly E asset_data "").1
                = ENamingConventionValidationResult.Valid then 1 else 0) ∧
          (ValidateAssets.loop M E show_if_no_failures ValidateAssets.init
              (before ++ [asset_data])).num_invalid_files
            = (ValidateAssets.loop M E show_if_no_failures ValidateAssets.init
                before).num_invalid_files +
              (if (M.IsAssetNamedCorrectly E asset_data "").1
                = ENamingConventionValidationResult.Invalid then 1 else 0) ∧
          (ValidateAssets.loop M E show_if_no_failures ValidateAssets.init
              (before ++ [asset_data])).num_files_unable_to_validate
            = (ValidateAssets.loop M E show_if_no_failures ValidateAssets.init
                before).num_files_unable_to_validate +
              (if (M.IsAssetNamedCorrectly E asset_data "").1
                = ENamingConventionValidationResult.Unknown then 1 else 0)) ∧
      { M.ValidateAssetsLocals E asset_data_list skip_excluded_directories show_if_no_failures
          with data_validation_log := [] } =
        { M.ValidateAssetsLocals E permuted_list skip_excluded_directories show_if_no_failures
          with data_validation_log := [] } ∧
      M.ValidateAssets E asset_data_list skip_excluded_directories show_if_no_failures =
        M.ValidateAssets E permuted_list skip_excluded_directories show_if_no_failures := by
  refine ⟨?_, ?_, ?_⟩
  · intro before asset_data
    have happ : ValidateAssets.loop M E show_if_no_failures ValidateAssets.init
        (before ++ [asset_data])
        = ValidateAssets.body M E show_if_no_failures
            (ValidateAssets.loop M E show_if_no_failures ValidateAssets.init before)
            asset_data := by
      rw [ValidateAssets.loop_append]
      rfl
    rw [happ]
    exact ⟨rfl, ValidateAssets.body_tally M E show_if_no_failures _ asset_data⟩
  · obtain ⟨a1, a2, a3, a4, a5⟩ := ValidateAssetsLocals_countP M E asset_data_list
      skip_excluded_directories show_if_no_failures
    obtain ⟨b1, b2, b3, b4, b5⟩ := ValidateAssetsLocals_countP M E permuted_list
      skip_excluded_directories show_if_no_failures
    rw [hperm.countP_eq] at a1 a2 a3 a4
    rw [hperm.countP_eq, hperm.countP_eq, hperm.countP_eq] at a5
    simp only [ValidateAssets.Locals.mk.injEq, and_true]
    exact ⟨a5.trans b5.symm, a2.trans b2.symm, a3.trans b3.symm, a1.trans b1.symm,
      a4.trans b4.symm⟩
  · unfold UNamingConventionValidationManager.ValidateAssets
    obtain ⟨-, -, a3, -, -⟩ := ValidateAssetsLocals_countP M E asset_data_list
      skip_excluded_directories show_if_no_failures
    obtain ⟨-, -, b3, -, -⟩ := ValidateAssetsLocals_countP M E permuted_list
      skip_excluded_directories show_if_no_failures
    rw [a3, b3, hperm.countP_eq]

/-- The statement C16 on two assets of the project, the invalid static mesh before the
valid texture and after it: one valid and one invalid file in both orders. -/
theorem ValidateAssets_permutation_witness :
    ProjectManager.ValidateAssets ProjectEngine [CubeAsset, WoodAsset] true true = 1 ∧
      ProjectManager.ValidateAssets ProjectEngine [WoodAsset, CubeAsset] true true = 1 :=
  ⟨by decide,
    ((ValidateAssets_permutation ProjectManager ProjectEngine [CubeAsset, WoodAsset]
      [WoodAsset, CubeAsset] true true (List.Perm.swap _ _ _)).2.2).symm.trans (by decide)⟩

/-! ## The value the commandlet returns -/

/-- C19: the value that `Main` returns does not depend on what the validation finds.
`ValidateData` never returns false and `Main` never returns 2; when the editor has the
naming validator subsystem, `ValidateData` returns true and `Main` returns 0, whatever
the assets of the registry and whatever `ValidateAssets` of the subsystem returns. -/
theorem Main_returns_zero (GEditor : UEditorEngine) (params : String) :
    UNamingConventionValidationCommandlet.ValidateData GEditor ≠ some false ∧
      UNamingConventionValidationCommandlet.Main GEditor params ≠ some 2 ∧
      (∀ editor_validator_subsystem : UEditorNamingValidatorSubsystem,
        GEditor.GetEditorSubsystem = some editor_validator_subsystem →
          UNamingConventionValidationCommandlet.ValidateData GEditor = some true ∧
            UNamingConventionValidationCommandlet.Main GEditor params = some 0) := by
  unfold UNamingConventionValidationCommandlet.Main
    UNamingConventionValidationCommandlet.ValidateData
  cases hsub : GEditor.GetEditorSubsystem with
  | none => simp
  | some editor_validator_subsystem => simp

/-- The commandlet on an editor whose registry holds an invalid asset: the subsystem
returns one invalid file, and `Main` returns 0. -/
theorem Main_returns_zero_with_Invalid :
    ProjectSubsystem.ValidateAssets (ProjectEditor.GetAssets ["/Game"]) = 1 ∧
      UNamingConventionValidationCommandlet.Main ProjectEditor "" = some 0 := by
  decide

/-! ## The argument `skip_excluded_directories` -/

/-- C20: the argument `skip_excluded_directories` has no effect.  `ValidateAssets` and
`RenameAssets` end with the same locals, log and calls of the rename executor included,
and return the same value, when it is true and when it is false; in both cases the assets
whose package name contains an excluded directory are among the skipped files. -/
theorem skip_excluded_directories_unused {σ : Type} (M : UNamingConventionValidationManager)
    (E : Engine) (module : IAssetTools σ) (asset_tools : σ)
    (asset_data_list : List FAssetData) (show_if_no_failures : Bool) :
    M.ValidateAssetsLocals E asset_data_list true show_if_no_failures =
        M.ValidateAssetsLocals E asset_data_list false show_if_no_failures ∧
      M.ValidateAssets E asset_data_list true show_if_no_failures =
        M.ValidateAssets E asset_data_list false show_if_no_failures ∧
      M.RenameAssetsLocals E module asset_tools asset_data_list true show_if_no_failures =
        M.RenameAssetsLocals E module asset_tools asset_data_list false show_if_no_failures ∧
      M.RenameAssets E module asset_tools asset_data_list true show_if_no_failures =
        M.RenameAssets E module asset_tools asset_data_list false show_if_no_failures ∧
      (∀ skip_excluded_directories : Bool,
        asset_data_list.countP (fun a => M.IsPathExcludedFromValidation a.PackageName)
            ≤ (M.ValidateAssetsLocals E asset_data_list skip_excluded_directories
                show_if_no_failures).num_files_skipped ∧
          asset_data_list.countP (fun a => M.IsPathExcludedFromValidation a.PackageName)
            ≤ (M.RenameAssetsLocals E module asset_tools asset_data_list
                skip_excluded_directories show_if_no_failures).num_files_skipped) := by
  refine ⟨rfl, rfl, rfl, rfl, ?_⟩
  intro skip_excluded_directories
  have hmono : asset_data_list.countP (fun a => M.IsPathExcludedFromValidation a.PackageName)
      ≤ asset_data_list.countP (fun a =>
        decide ((M.IsAssetNamedCorrectly E a "").1
          = ENamingConventionValidationResult.Excluded)) := by
    apply List.countP_mono_left
    intro a _ ha
    simp [UNamingConventionValidationManager.IsAssetNamedCorrectly, ha]
  obtain ⟨v1, -, -, -, -⟩ := ValidateAssetsLocals_countP M E asset_data_list
    skip_excluded_directories show_if_no_failures
  obtain ⟨-, r2, -, -, -, -⟩ := RenameAssetsLocals_counters M E module asset_tools
    asset_data_list skip_excluded_directories show_if_no_failures
  obtain ⟨-, k2, -⟩ := RenameAssets.renameLoop_counters M E module show_if_no_failures
    asset_data_list (RenameAssets.init asset_tools)
  have h0 : (RenameAssets.init asset_tools).num_files_skipped = 0 := rfl
  rw [h0, Nat.zero_add] at k2
  rw [v1, r2, k2]
  exact ⟨hmono, hmono⟩

/-- `ValidateAssets` and `RenameAssets` on an asset of the engine content and a static
mesh for which the rename executor fails: the first is skipped, with
`skip_excluded_directories` false as with it true, and the failure of the rename is
counted and returned. -/
theorem skip_excluded_directories_unused_EngineShape :
    (ProjectManager.ValidateAssetsLocals ProjectEngine [EngineShapeAsset, CubeAsset] false
        true).num_files_skipped = 1 ∧
      (ProjectManager.ValidateAssetsLocals ProjectEngine [EngineShapeAsset, CubeAsset] true
        true).num_files_skipped = 1 ∧
      (ProjectManager.RenameAssetsLocals ProjectEngine ProjectAssetTools 0
        [EngineShapeAsset, CubeAsset, PlankAsset] false true).num_files_skipped = 1 ∧
      (ProjectManager.RenameAssetsLocals ProjectEngine ProjectAssetTools 0
        [EngineShapeAsset, CubeAsset, PlankAsset] false true).num_files_renamed = 1 ∧
      ProjectManager.RenameAssets ProjectEngine ProjectAssetTools 0
        [EngineShapeAsset, CubeAsset, PlankAsset] false true = 1 := by
  decide

/-! ## The saved packages that wait for their validation -/

/-- A name is equal to itself. -/
theorem FName.Equals_refl (a : String) : FName.Equals a a = true := by
  simp [FName.Equals]

/-- `AddUnique` keeps an array without two equal elements without two equal elements. -/
theorem TArray.AddUnique_pairwise {α : Type} (Equals : α → α → Bool) (l : List α) (Item : α)
    (h : l.Pairwise (fun a b => Equals a b = false)) :
    (TArray.AddUnique Equals l Item).Pairwise (fun a b => Equals a b = false) := by
  unfold TArray.AddUnique
  by_cases hany : l.any (fun Element => Equals Element Item) = true
  · rw [if_pos hany]
    exact h
  · rw [if_neg hany]
    rw [List.pairwise_append]
    refine ⟨h, List.pairwise_singleton _ _, ?_⟩
    intro a ha b hb
    rw [List.mem_singleton] at hb
    subst hb
    cases hab : Equals a b
    · rfl
    · exact absurd (List.any_eq_true.2 ⟨a, ha, hab⟩) hany

/-- A call of `ValidateSavedPackage` or of `ValidateAllSavedPackages` on a manager whose
saved packages are without two equal names leaves them so. -/
theorem AfterSavedPackagesCalls_pairwise (E : Engine) (asset_registry : IAssetRegistry)
    (calls : List SavedPackagesCall) :
    ∀ M : UNamingConventionValidationManager,
      M.SavedPackagesToValidate.Pairwise (fun a b => FName.Equals a b = false) →
      (M.AfterSavedPackagesCalls E asset_registry calls).SavedPackagesToValidate.Pairwise
        (fun a b => FName.Equals a b = false) := by
  induction calls with
  | nil =>
    intro M hM
    exact hM
  | cons call calls ih =>
    intro M hM
    cases call with
    | ValidateSavedPackage package_name IsAutosaving =>
      simp only [UNamingConventionValidationManager.AfterSavedPackagesCalls]
      apply ih
      unfold UNamingConventionValidationManager.ValidateSavedPackage
      by_cases hskip : (!M.bValidateOnSave || IsAutosaving) = true
      · rw [if_pos hskip]
        exact hM
      · rw [if_neg hskip]
        exact TArray.AddUnique_pairwise FName.Equals _ _ hM
    | ValidateAllSavedPackages IsAutosaving =>
      simp only [UNamingConventionValidationManager.AfterSavedPackagesCalls]
      apply ih
      simp [UNamingConventionValidationManager.ValidateAllSavedPackages]

/-- C21: starting from no saved package, after any sequence of calls of
`ValidateSavedPackage` and `ValidateAllSavedPackages`, `SavedPackagesToValidate` holds no
name twice, and no two names that `operator==` of `FName` finds equal.  A call of
`ValidateSavedPackage` leaves the manager as it is when `bValidateOnSave` is false or an
autosave is in progress, and a call of `ValidateAllSavedPackages` leaves no saved
package. -/
theorem SavedPackagesToValidate_no_duplicate
    (M : UNamingConventionValidationManager) (E : Engine) (asset_registry : IAssetRegistry)
    (calls : List SavedPackagesCall) (hempty : M.SavedPackagesToValidate = []) :
    (M.AfterSavedPackagesCalls E asset_registry calls).SavedPackagesToValidate.Nodup ∧
      (∀ package_name : String,
        (M.AfterSavedPackagesCalls E asset_registry calls).SavedPackagesToValidate.count
          package_name ≤ 1) ∧
      (M.AfterSavedPackagesCalls E asset_registry calls).SavedPackagesToValidate.Pairwise
        (fun a b => FName.Equals a b = false) ∧
      (∀ (N : UNamingConventionValidationManager) (IsAutosaving : Bool) (package_name : String),
        N.bValidateOnSave = false ∨ IsAutosaving = true →
          (N.ValidateSavedPackage IsAutosaving package_name).1 = N) ∧
      (∀ (N : UNamingConventionValidationManager) (IsAutosaving : Bool),
        (N.ValidateAllSavedPackages E asset_registry IsAutosaving).1.SavedPackagesToValidate
          = []) := by
  have hpair := AfterSavedPackagesCalls_pairwise E asset_registry calls M
    (by rw [hempty]; exact List.Pairwise.nil)
  have hnodup : (M.AfterSavedPackagesCalls E asset_registry calls).SavedPackagesToValidate.Nodup :=
    hpair.imp (fun {a b} hab heq => by
      rw [heq, FName.Equals_refl] at hab
      exact Bool.noConfusion hab)
  refine ⟨hnodup, fun package_name => List.nodup_iff_count_le_one.1 hnodup package_name,
    hpair, ?_, ?_⟩
  · intro N IsAutosaving package_name hskip
    unfold UNamingConventionValidationManager.ValidateSavedPackage
    rcases hskip with hskip | hskip <;> simp [hskip]
  · intro N IsAutosaving
    rfl

/-- The statement C21 on the saves of the project: the package of `Cube`, saved twice,
and the package of `T_Wood`, saved during an autosave and after it, wait once each. -/
theorem SavedPackagesToValidate_no_duplicate_witness :
    (ProjectManager.AfterSavedPackagesCalls ProjectEngine ProjectAssetRegistry
        ProjectSaves).SavedPackagesToValidate
      = ["/Game/Meshes/Cube", "/Game/Textures/T_Wood"] ∧
    (ProjectManager.AfterSavedPackagesCalls ProjectEngine ProjectAssetRegistry
        ProjectSaves).SavedPackagesToValidate.Nodup :=
  ⟨by decide,
    (SavedPackagesToValidate_no_duplicate ProjectManager ProjectEngine ProjectAssetRegistry
      ProjectSaves rfl).1⟩

end NamingConventionValidation
